import Mathlib

/-!
Verification of the content-addressing and metadata-cache subsystem of the
umbrel-blob-box Blossom server.

The definitions below are a shallow embedding of the TypeScript source:
  * `src/unnamed/part_005`            — `StorageService` (cache, scanner, upload/delete store)
  * `src/routes/blossom/index.ts`     — blossom route handlers (upload/get/delete/list)
  * `src/routes/blossom/list.ts`      — list handler
  * `src/utils/nostr.ts`              — authorization-event validation
  * `src/unnamed/part_006`            — CORS / response helpers (`utils/cors.ts`)
  * `src/unnamed/part_009`            — `env.ts` constants

Machine integers are modelled as `Nat`/`Int` with explicit reduction mod `2^32`
where JavaScript's 32-bit operations matter (SHA-256).  File contents are
`List Nat` (byte values).  The file system and the hash cache are association
lists whose order models JavaScript object-key insertion order.  External
primitives (Nostr signature verification, MIME lookup) are parameters of the
model, as the specification treats them as trusted black boxes.
-/

set_option maxRecDepth 100000

namespace BlobBox

/-- Bytes of a file: a list of byte values. -/
abbrev Bytes := List Nat

/-! ### JavaScript `parseInt`

`parseInt(s)` skips leading whitespace, accepts an optional sign, and reads a
maximal prefix of decimal digits; it yields NaN (here `none`) when no digit is
read.  Trailing garbage is ignored. -/

/-- Decimal digit test for `parseInt`. -/
def isDecDigit (c : Char) : Bool := 48 ≤ c.toNat && c.toNat ≤ 57

/-- Value of a maximal leading run of decimal digits, with the rest. -/
def takeDigits : List Char → Nat → Option Nat × List Char
  | [], acc => (some acc, [])
  | c :: cs, acc =>
    if isDecDigit c then takeDigits cs (acc * 10 + (c.toNat - 48))
    else (some acc, c :: cs)

/-- `parseInt` on the character list after whitespace stripping. -/
def jsParseIntCore : List Char → Option Int
  | [] => none
  | c :: cs =>
    if c = '-' then
      match cs with
      | [] => none
      | d :: _ => if isDecDigit d then (takeDigits cs 0).1.map (fun n => -(n : Int)) else none
    else if c = '+' then
      match cs with
      | [] => none
      | d :: _ => if isDecDigit d then (takeDigits cs 0).1.map (fun n => (n : Int)) else none
    else if isDecDigit c then (takeDigits (c :: cs) 0).1.map (fun n => (n : Int))
    else none

/-- Model of JavaScript `parseInt(s)` (radix 10); `none` models `NaN`. -/
def jsParseInt (s : String) : Option Int :=
  jsParseIntCore (s.data.dropWhile (fun c => c = ' ' || c = '\t' || c = '\n' || c = '\r'))

/-! ### SHA-256 (`createHash("sha256")`), big-endian, lowercase hex digest -/

namespace SHA256

/-- Reduce to a 32-bit word. -/
def w32 (n : Nat) : Nat := n % 4294967296

/-- 32-bit addition. -/
def add32 (a b : Nat) : Nat := w32 (a + b)

/-- Right rotation of a 32-bit word by `n` bits. -/
def rotr (n x : Nat) : Nat := (x >>> n) + w32 ((x % 2 ^ n) <<< (32 - n))

/-- Bitwise complement of a 32-bit word. -/
def not32 (x : Nat) : Nat := 4294967295 - w32 x

/-- SHA-256 round constants. -/
def K : List Nat :=
  [1116352408, 1899447441, 3049323471, 3921009573, 961987163,
   1508970993, 2453635748, 2870763221, 3624381080, 310598401,
   607225278, 1426881987, 1925078388, 2162078206, 2614888103,
   3248222580, 3835390401, 4022224774, 264347078, 604807628,
   770255983, 1249150122, 1555081692, 1996064986, 2554220882,
   2821834349, 2952996808, 3210313671, 3336571891, 3584528711,
   113926993, 338241895, 666307205, 773529912, 1294757372,
   1396182291, 1695183700, 1986661051, 2177026350, 2456956037,
   2730485921, 2820302411, 3259730800, 3345764771, 3516065817,
   3600352804, 4094571909, 275423344, 430227734, 506948616,
   659060556, 883997877, 958139571, 1322822218, 1537002063,
   1747873779, 1955562222, 2024104815, 2227730452, 2361852424,
   2428436474, 2756734187, 3204031479, 3329325298]

/-- Initial hash values. -/
def H0 : List Nat :=
  [1779033703, 3144134277, 1013904242, 2773480762, 1359893119,
   2600822924, 528734635, 1541459225]

/-- `n`-byte big-endian encoding of `v`. -/
def bytesBE (n v : Nat) : List Nat :=
  (List.range n).map (fun i => (v >>> (8 * (n - 1 - i))) % 256)

/-- Merkle–Damgård padding: `0x80`, zeros, 8-byte big-endian bit length. -/
def pad (msg : List Nat) : List Nat :=
  let L := msg.length
  msg ++ [0x80] ++ List.replicate ((64 - (L + 9) % 64) % 64) 0 ++ bytesBE 8 (8 * L)

/-- Group bytes into big-endian 32-bit words. -/
def toWords : List Nat → List Nat
  | a :: b :: c :: d :: rest => (((a * 256 + b) * 256 + c) * 256 + d) :: toWords rest
  | _ => []

/-- Split into 64-byte blocks; structural recursion on a fuel bound (the
list length) so that the definition reduces inside the kernel.  Each step
consumes at least one element, so `l.length` fuel always suffices. -/
def chunksAux : Nat → List Nat → List (List Nat)
  | _, [] => []
  | 0, _ :: _ => []
  | fuel + 1, a :: rest => (a :: rest).take 64 :: chunksAux fuel ((a :: rest).drop 64)

/-- Split into 64-byte blocks. -/
def chunks (l : List Nat) : List (List Nat) := chunksAux l.length l

/-- Extend 16 message words to the 64-word schedule. -/
def schedule (w16 : List Nat) : Array Nat :=
  (List.range 48).foldl
    (fun w i =>
      let j := i + 16
      let w15 := w.getD (j - 15) 0
      let w2 := w.getD (j - 2) 0
      let s0 := (rotr 7 w15) ^^^ (rotr 18 w15) ^^^ (w15 >>> 3)
      let s1 := (rotr 17 w2) ^^^ (rotr 19 w2) ^^^ (w2 >>> 10)
      w.push (add32 (add32 (w.getD (j - 16) 0) s0) (add32 (w.getD (j - 7) 0) s1)))
    w16.toArray

/-- One compression round on the 8-word state. -/
def round (st : List Nat) (ki wi : Nat) : List Nat :=
  match st with
  | [a, b, c, d, e, f, g, h] =>
    let S1 := (rotr 6 e) ^^^ (rotr 11 e) ^^^ (rotr 25 e)
    let ch := (e &&& f) ^^^ (not32 e &&& g)
    let t1 := add32 h (add32 S1 (add32 ch (add32 ki wi)))
    let S0 := (rotr 2 a) ^^^ (rotr 13 a) ^^^ (rotr 22 a)
    let mj := (a &&& b) ^^^ (a &&& c) ^^^ (b &&& c)
    [add32 t1 (add32 S0 mj), a, b, c, add32 d t1, e, f, g]
  | other => other

/-- Compress one 64-byte block into the hash state. -/
def compress (hv : List Nat) (chunk : List Nat) : List Nat :=
  let ws := schedule (toWords chunk)
  let st := (List.range 64).foldl (fun st i => round st (K.getD i 0) (ws.getD i 0)) hv
  List.zipWith add32 hv st

/-- SHA-256 digest of a byte sequence, as eight 32-bit words. -/
def sha256Words (msg : List Nat) : List Nat :=
  (chunks (pad msg)).foldl compress H0

/-- Lowercase hex digit. -/
def hexChar (n : Nat) : Char := if n < 10 then Char.ofNat (48 + n) else Char.ofNat (87 + n)

/-- Eight lowercase hex characters of a 32-bit word, big-endian. -/
def hexWord (n : Nat) : List Char :=
  (List.range 8).map (fun i => hexChar ((n >>> (4 * (7 - i))) % 16))

end SHA256

/-- `createHash("sha256").update(data).digest("hex")`: lowercase hex SHA-256. -/
def sha256Hex (msg : List Nat) : String :=
  ⟨((SHA256.sha256Words msg).map SHA256.hexWord).flatten⟩

/-! ### The data model

The hash cache is a JavaScript object `{ [relativePath]: {hash, mtime, size} }`.
Plain-object key iteration order is insertion order for string keys, assigning
to an existing key keeps its position, and `delete` removes the key: we model
the cache as an association list with exactly these operations.  The file
system is likewise a map from full path to file bytes. -/

/-- One cache entry: `{hash, mtime, size}` (`FileHashCache` values). -/
structure CacheEntry where
  hash : String
  mtime : Nat
  size : Nat
deriving Repr, DecidableEq

/-- The hash cache, in object-key iteration order. -/
abbrev Cache := List (String × CacheEntry)

/-- The visible file system: full path → bytes. -/
abbrev Disk := List (String × Bytes)

/-- First value bound to a key in an association list. -/
def alookup {β : Type} (l : List (String × β)) (k : String) : Option β :=
  (l.find? (fun p => p.1 = k)).map Prod.snd

/-- JS object property assignment: overwrite in place, or append a new key. -/
def aset {β : Type} (l : List (String × β)) (k : String) (v : β) : List (String × β) :=
  match l with
  | [] => [(k, v)]
  | (k', v') :: rest => if k' = k then (k, v) :: rest else (k', v') :: aset rest k v

/-- JS `delete obj[k]`: drop every binding of `k`. -/
def adel {β : Type} (l : List (String × β)) (k : String) : List (String × β) :=
  l.filter (fun p => p.1 ≠ k)

/-- `existsSync`: the path is present on disk. -/
def existsSync (d : Disk) (p : String) : Bool := (alookup d p).isSome

/-- `path.join(a, b)` for a relative `b`: forward-slash concatenation. -/
def joinPath (a b : String) : String := ⟨a.data ++ '/' :: b.data⟩

/-- `path.relative(blobDir, fullPath)` for paths under `blobDir`. -/
def relativeOf (blobDir fullPath : String) : String :=
  ⟨fullPath.data.drop (blobDir.data.length + 1)⟩

/-- `String.prototype.startsWith`. -/
def strStartsWith (s pre : String) : Bool := pre.data.isPrefixOf s.data

/-! ### HTTP responses (`utils/cors.ts`, `utils/nostr.ts`)

A `Response` body is one of: absent, a plain string, raw blob bytes, or
JSON-serialized structured data.  Serialization of a blob descriptor (list)
is injective, so the body carries the structured value itself. -/

/-- Blob descriptor as defined in BUD-02 (`routes/blossom/types.ts`). -/
structure BlobDescriptor where
  url : String
  sha256 : String
  size : Nat
  type : String
  uploaded : Nat
deriving Repr, DecidableEq

/-- Response body. -/
inductive Body where
  | empty
  | text (s : String)
  | bytes (b : Bytes)
  | jsonDescriptor (d : BlobDescriptor)
  | jsonDescriptors (l : List BlobDescriptor)
  | jsonMessage (message : String)
deriving Repr, DecidableEq

/-- An HTTP response: status, headers (in object-key order), body. -/
structure HttpResponse where
  status : Nat
  headers : List (String × String)
  body : Body
deriving Repr, DecidableEq

/-- JS object spread `\x7b...a, ...b\x7d`: assign the entries of `b` over `a`. -/
def objMerge {β : Type} (a b : List (String × β)) : List (String × β) :=
  b.foldl (fun acc p => aset acc p.1 p.2) a

/-- `CORS_HEADERS`. -/
def corsBaseHeaders : List (String × String) := [("Access-Control-Allow-Origin", "*")]

/-- `addCorsHeaders(headers)`. -/
def addCorsHeaders (headers : List (String × String)) : List (String × String) :=
  objMerge corsBaseHeaders headers

/-- A dynamically-typed JS value in the `reason` position of
`createCorsErrorResponse` (its static type is `string?`, but one call site
passes a header object, so the embedding keeps the runtime distinction). -/
inductive JsVal where
  | undef
  | str (s : String)
  | obj (o : List (String × String))
deriving Repr, DecidableEq

/-- JS truthiness of such a value. -/
def JsVal.truthy : JsVal → Bool
  | .undef => false
  | .str s => s ≠ ""
  | .obj _ => true

/-- JS string coercion as performed by the `Headers` constructor. -/
def JsVal.asHeaderValue : JsVal → String
  | .undef => "undefined"
  | .str s => s
  | .obj _ => "[object Object]"

/-- `createCorsErrorResponse(message, status, reason?, additionalHeaders?)`
from `utils/cors.ts`: body is the message, headers are CORS plus `X-Reason`
(the coerced `reason || message`) plus any additional headers. -/
def createCorsErrorResponse (message : String) (status : Nat) (reason : JsVal)
    (additionalHeaders : Option (List (String × String))) : HttpResponse :=
  let reasonValue := if reason.truthy then reason.asHeaderValue else message
  { status := status
    headers := addCorsHeaders (objMerge [("X-Reason", reasonValue)] (additionalHeaders.getD []))
    body := .text message }

/-- `createCorsResponse(body, {status, headers})`. -/
def createCorsResponse (body : Body) (status : Nat) (headers : List (String × String)) :
    HttpResponse :=
  { status := status, headers := addCorsHeaders headers, body := body }

/-- `createAuthErrorResponse(message, status = 401)` from `utils/nostr.ts`. -/
def createAuthErrorResponse (message : String) (status : Nat) : HttpResponse :=
  { status := status
    headers := [("Content-Type", "application/json"),
                ("Access-Control-Allow-Origin", "*"),
                ("X-Reason", message)]
    body := .text message }

/-! ### Nostr authorization (`utils/nostr.ts`, `routes/blossom` auth)

Signature verification (`verifyEventSignature`) wraps the nostr-tools
cryptographic primitive, which the specification treats as a black box: it is
a parameter `verifySig` of the model.  `Date.now()` is the parameter `nowMs`
(milliseconds).  The comparison `Date.now() / 1000 > expiration` is exact
rational arithmetic in JS doubles at realistic magnitudes, embedded as the
equivalent integer comparison `nowMs > 1000 * expiration`. -/

/-- A Nostr event (`NostrEvent`); tags are lists of strings. -/
structure NostrEvent where
  id : String
  pubkey : String
  created_at : Nat
  kind : Int
  tags : List (List String)
  content : String
  sig : String
deriving Repr, DecidableEq

/-- `event.tags.find(tag => tag[0] === k)`. -/
def findTag (e : NostrEvent) (k : String) : Option (List String) :=
  e.tags.find? (fun tag => tag[0]? == some k)

/-- The truthy value of `tag[1]` of the first `k` tag, if any
(`tag && tag[1]` — the empty string is falsy). -/
def tagValue (e : NostrEvent) (k : String) : Option String :=
  match (findTag e k).bind (fun tag => tag[1]?) with
  | some s => if s = "" then none else some s
  | none => none

/-- Environment of the authorization layer: the signature verifier, the
whitelist (`appConfig.isWhitelisted` checks membership of
`config.whitelist`), the clock, and the configured size limit. -/
structure AuthEnv where
  verifySig : NostrEvent → Bool
  whitelist : List String
  nowMs : Nat
deriving Inhabited

/-- The parsed `Authorization` header: `none` = header absent,
`some none` = `parseAuthorizationHeader` returned null, `some (some e)` =
a structurally valid event. -/
abbrev AuthHeader := Option (Option NostrEvent)

/-- Expiration test used by both validators: a truthy `expiration` tag value
that parses to an integer `exp` with `Date.now() / 1000 > exp`. -/
def isExpired (env : AuthEnv) (e : NostrEvent) : Bool :=
  match tagValue e "expiration" with
  | some s =>
    match jsParseInt s with
    | some exp => (env.nowMs : Int) > 1000 * exp
    | none => false
  | none => false

/-- `t` tag check: `!tTag || tTag[1] !== authType`. -/
def hasTTag (e : NostrEvent) (authType : String) : Bool :=
  match findTag e "t" with
  | some tag => tag[1]? == some authType
  | none => false

/-- The `x`-tag check shared by `isValidBlossomAuth` and
`validateAuthorizationHash`: at least one `x` tag, and some expected hash
among the defined `x` values. -/
def xTagMatches (e : NostrEvent) (expectedHashes : List String) : Bool :=
  let xTags := e.tags.filter (fun tag => tag[0]? == some "x")
  if xTags.length = 0 then false
  else
    let xTagValues := xTags.filterMap (fun tag => tag[1]?)
    expectedHashes.any (fun h => xTagValues.contains h)

/-- `isValidBlossomAuth(event, authType, expectedHashes?)` from `utils/nostr.ts`. -/
def isValidBlossomAuth (env : AuthEnv) (e : NostrEvent) (authType : String)
    (expectedHashes : Option (List String)) : Bool :=
  if e.kind ≠ 24242 then false
  else if ¬ hasTTag e authType then false
  else if (authType = "upload" ∨ authType = "delete") ∧ expectedHashes.isSome then
    if ¬ xTagMatches e (expectedHashes.getD []) then false
    else ¬ isExpired env e
  else ¬ isExpired env e

/-- `validateAuthorizationHash(event, authType, expectedHashes)` from the
blossom auth module. -/
def validateAuthorizationHash (e : NostrEvent) (expectedHashes : List String) : Bool :=
  xTagMatches e expectedHashes

/-- Result of early authorization: the pubkey and event on success. -/
structure AuthOk where
  pubkey : String
  event : NostrEvent
deriving Repr, DecidableEq

/-- `validateAuthorizationEarly(req, authType)`: header present and parsed,
signature valid, kind 24242, matching `t` tag, not expired, whitelisted. -/
def validateAuthorizationEarly (env : AuthEnv) (auth : AuthHeader) (authType : String) :
    Except HttpResponse AuthOk :=
  match auth with
  | none => .error (createAuthErrorResponse "Authorization header required" 401)
  | some none => .error (createAuthErrorResponse "Invalid authorization header format" 401)
  | some (some e) =>
    if ¬ env.verifySig e then
      .error (createAuthErrorResponse "Invalid event signature" 401)
    else if e.kind ≠ 24242 then
      .error (createAuthErrorResponse ("Invalid " ++ authType ++ " authorization event") 401)
    else if ¬ hasTTag e authType then
      .error (createAuthErrorResponse ("Invalid " ++ authType ++ " authorization event") 401)
    else if isExpired env e then
      .error (createAuthErrorResponse "Authorization event has expired" 401)
    else if ¬ env.whitelist.contains e.pubkey then
      .error (createAuthErrorResponse "Pubkey not whitelisted" 403)
    else
      .ok ⟨e.pubkey, e⟩

/-- `validateAuthorization(req, authType, expectedHashes?)` (used by delete). -/
def validateAuthorization (env : AuthEnv) (auth : AuthHeader) (authType : String)
    (expectedHashes : Option (List String)) : Except HttpResponse String :=
  match auth with
  | none => .error (createAuthErrorResponse "Authorization header required" 401)
  | some none => .error (createAuthErrorResponse "Invalid authorization header format" 401)
  | some (some e) =>
    if ¬ env.verifySig e then
      .error (createAuthErrorResponse "Invalid event signature" 401)
    else if ¬ isValidBlossomAuth env e authType expectedHashes then
      .error (createAuthErrorResponse ("Invalid " ++ authType ++ " authorization event") 401)
    else if ¬ env.whitelist.contains e.pubkey then
      .error (createAuthErrorResponse "Pubkey not whitelisted" 403)
    else
      .ok e.pubkey

/-! ### StorageService (`src/unnamed/part_005`)

A file on disk has content bytes and a modification time; `stat` reports
`(mtime, size)` with `size` the byte length.  `saveCache` and `unlink` are
blocking I/O that can fail; where a claim is about failure behaviour the
outcome is injected through `unlinkOk` / `saveOk` parameters (`true` = the
call returns, `false` = it throws). -/

/-- A file: content bytes plus modification time (milliseconds). -/
structure FileData where
  content : Bytes
  mtime : Nat
deriving Repr, DecidableEq

/-- The file system as seen through `fs`: full path → file. -/
abbrev FDisk := List (String × FileData)

/-- `existsSync` against the typed disk. -/
def fexists (d : FDisk) (p : String) : Bool := (alookup d p).isSome

/-- `StorageService.loadCache`: the persisted snapshot (`none` when the cache
file is absent) is parsed by `JSON.parse`, modelled by an arbitrary `parse`
function whose `.error` case is a thrown exception; the surrounding
`try/catch` degrades every failure to the empty cache. -/
def loadCache (snapshot : Option String) (parse : String → Except String Cache) : Cache :=
  match snapshot with
  | none => []
  | some content =>
    match parse content with
    | .ok c => c
    | .error _ => []

/-- `StorageService.processFile(filePath)`: returns the updated cache and
whether the file was (re)hashed.  A missing file makes `stat` throw; the
`catch` returns `false` with the cache untouched. -/
def processFile (blobDir : String) (disk : FDisk) (cache : Cache) (filePath : String) :
    Cache × Bool :=
  match alookup disk filePath with
  | none => (cache, false)
  | some fd =>
    let stMtime := fd.mtime
    let stSize := fd.content.length
    let relativePath := relativeOf blobDir filePath
    let dirty : Bool :=
      match alookup cache relativePath with
      | none => true
      | some c => c.mtime ≠ stMtime || c.size ≠ stSize
    if dirty then
      let hash := sha256Hex fd.content
      let existingEntry := cache.find? (fun pe =>
        pe.1 ≠ relativePath && pe.2.hash = hash && pe.2.size = stSize)
      let cache1 :=
        match existingEntry with
        | some pe =>
          if ¬ fexists disk (joinPath blobDir pe.1) then adel cache pe.1 else cache
        | none => cache
      (aset cache1 relativePath ⟨hash, stMtime, stSize⟩, true)
    else
      (cache, false)

/-- `BLOSSOM_UPLOADS_FOLDER` (`env.ts` default). -/
def BLOSSOM_UPLOADS_FOLDER : String := "blossom-uploads"

/-- `StorageService.storeBlobForPubkey(pubkey, filename, data)`: writes the
file under `blossom-uploads/<pubkey>/`, hashes the data, updates the cache
synchronously, saves, and returns `(filePath, hash)` with the new state.
`mtimeNow` is the mtime `stat` reports for the file just written. -/
def storeBlobForPubkey (blobDir pubkey filename : String) (data : Bytes) (mtimeNow : Nat)
    (disk : FDisk) (cache : Cache) : (String × String) × FDisk × Cache :=
  let uploadsDir := joinPath (joinPath blobDir BLOSSOM_UPLOADS_FOLDER) pubkey
  let filePath := joinPath uploadsDir filename
  let disk' := aset disk filePath ⟨data, mtimeNow⟩
  let hash := sha256Hex data
  let relativePath := relativeOf blobDir filePath
  let cache' := aset cache relativePath ⟨hash, mtimeNow, data.length⟩
  ((filePath, hash), disk', cache')

/-- Loop body of `StorageService.deleteBlobByHash` over the entries of the
`getAllHashes()` copy.  A failed `unlink` is caught: `false` with nothing
changed.  A failed `saveCache` is caught after the file and cache entry are
already gone: `false` with the mutations in place. -/
def deleteLoop (blobDir : String) (unlinkOk : String → Bool) (saveOk : Bool) (hash : String)
    (disk : FDisk) (cache : Cache) : List (String × CacheEntry) → Bool × FDisk × Cache
  | [] => (false, disk, cache)
  | (relativePath, e) :: rest =>
    if e.hash = hash then
      let fullPath := joinPath blobDir relativePath
      if fexists disk fullPath then
        if unlinkOk fullPath then
          let disk' := adel disk fullPath
          let cache' := adel cache relativePath
          (if saveOk then true else false, disk', cache')
        else
          (false, disk, cache)
      else
        deleteLoop blobDir unlinkOk saveOk hash disk cache rest
    else
      deleteLoop blobDir unlinkOk saveOk hash disk cache rest

/-- `StorageService.deleteBlobByHash(hash)`. -/
def deleteBlobByHash (blobDir : String) (unlinkOk : String → Bool) (saveOk : Bool)
    (disk : FDisk) (cache : Cache) (hash : String) : Bool × FDisk × Cache :=
  deleteLoop blobDir unlinkOk saveOk hash disk cache cache

/-- Entry of a `getBlobsByPubkey` result. -/
structure BlobInfo where
  relativePath : String
  hash : String
  size : Nat
  mtime : Nat
deriving Repr, DecidableEq

/-- `StorageService.getBlobsByPubkey(pubkey)`: cached entries under
`blossom-uploads/<pubkey>`, sorted most-recent-first.  `Array.prototype.sort`
with comparator `(a, b) => b.mtime - a.mtime` is a stable sort into
descending mtime order, modelled by `mergeSort`. -/
def getBlobsByPubkey (pubkey : String) (cache : Cache) : List BlobInfo :=
  let uploadsRoot := joinPath BLOSSOM_UPLOADS_FOLDER pubkey
  let results := (cache.filter (fun pe => strStartsWith pe.1 uploadsRoot)).map
    (fun pe => BlobInfo.mk pe.1 pe.2.hash pe.2.size pe.2.mtime)
  results.mergeSort (fun a b => b.mtime ≤ a.mtime)

/-! ### Blossom route handlers (`routes/blossom`)

MIME lookup (`mime.getType` / `mime.getExtension`) is an external table,
passed as functions.  `APP_HIDDEN_SERVICE || "http://localhost:3000"` is the
`baseUrl` parameter. -/

/-- Environment of the route layer. -/
structure RouteEnv where
  auth : AuthEnv
  blobDir : String
  baseUrl : String
  maxFileSize : Option Nat
  mimeGetType : String → Option String
  mimeGetExtension : String → Option String

/-- Lowercase or uppercase hex digit (`[a-f0-9]` with the `i` flag). -/
def isHexCharCI (c : Char) : Bool :=
  ('a' ≤ c && c ≤ 'f') || ('A' ≤ c && c ≤ 'F') || ('0' ≤ c && c ≤ '9')

/-- Strictly lowercase hex digit (`[a-f0-9]`, no flag). -/
def isHexCharLower (c : Char) : Bool :=
  ('a' ≤ c && c ≤ 'f') || ('0' ≤ c && c ≤ '9')

/-- `isValidSha256`: `/^[a-f0-9]\x7b64\x7d$/i`. -/
def isValidSha256 (s : String) : Bool :=
  s.data.length = 64 && s.data.all isHexCharCI

/-- `isValidPubkey`: the same 64-hex-character test. -/
def isValidPubkey (s : String) : Bool :=
  s.data.length = 64 && s.data.all isHexCharCI

/-- Parsed `/<sha256>[.ext]` path. -/
structure BlobPathInfo where
  hash : String
  extension : Option String
deriving Repr, DecidableEq

/-- `parseBlobPath(pathname)`: `/^\/([a-f0-9]\x7b64\x7d)(?:\.(.+))?$/`. -/
def parseBlobPath (pathname : String) : Option BlobPathInfo :=
  match pathname.data with
  | '/' :: rest =>
    let hashChars := rest.take 64
    if hashChars.length = 64 && hashChars.all isHexCharLower then
      match rest.drop 64 with
      | [] => some ⟨⟨hashChars⟩, none⟩
      | '.' :: ext => if ext.isEmpty then none else some ⟨⟨hashChars⟩, some ⟨ext⟩⟩
      | _ => none
    else none
  | _ => none

/-- `findBlobByHash(hash)`: first cache entry (iteration order) whose hash
matches and whose file still exists; a matching entry with a missing file is
skipped and the scan continues. -/
def findBlobByHash (blobDir : String) (disk : FDisk) (cache : Cache) (hash : String) :
    Option String :=
  match cache.find? (fun pe => pe.2.hash = hash && fexists disk (joinPath blobDir pe.1)) with
  | some pe => some (joinPath blobDir pe.1)
  | none => none

/-- `getMimeType(filePath, extension?)`. -/
def getMimeType (env : RouteEnv) (filePath : String) (extension : Option String) : String :=
  let mimeType := (env.mimeGetType filePath).getD "application/octet-stream"
  match extension with
  | some e =>
    match env.mimeGetType ("." ++ e) with
    | some extMimeType => extMimeType
    | none => mimeType
  | none => mimeType

/-- `determineMimeType(filename?, contentType?)`. -/
def determineMimeType (env : RouteEnv) (filename : Option String)
    (contentType : Option String) : String :=
  match contentType with
  | some ct =>
    if ct ≠ "" && ct ≠ "application/octet-stream" then ct
    else determineMimeTypeFromName env filename
  | none => determineMimeTypeFromName env filename
where
  determineMimeTypeFromName (env : RouteEnv) : Option String → String
    | some f =>
      match env.mimeGetType f with
      | some m => m
      | none => "application/octet-stream"
    | none => "application/octet-stream"

/-- `path.extname`. -/
def jsExtname (s : String) : String :=
  let r := s.data.reverse
  let pre := r.takeWhile (fun c => c ≠ '.')
  if pre.length + 1 ≥ r.length then "" else ⟨'.' :: pre.reverse⟩

/-- `path.basename`. -/
def jsBasename (s : String) : String :=
  ⟨(s.data.reverse.takeWhile (fun c => c ≠ '/')).reverse⟩

/-- `generateFilename(hash, contentType?, originalFilename?)`. -/
def generateFilename (env : RouteEnv) (hash : String) (contentType : Option String)
    (originalFilename : Option String) : String :=
  match originalFilename with
  | some f => f
  | none =>
    let extension :=
      match contentType with
      | some ct =>
        match env.mimeGetExtension ct with
        | some e => "." ++ e
        | none => ""
      | none => ""
    hash ++ extension

/-- `createBlobDescriptor(hash, size, mimeType, uploaded, filename?)`. -/
def createBlobDescriptor (env : RouteEnv) (hash : String) (size : Nat) (mimeType : String)
    (uploaded : Nat) (filename : Option String) : BlobDescriptor :=
  let extension := match filename with | some f => jsExtname f | none => ""
  { url := env.baseUrl ++ "/" ++ hash ++ extension
    sha256 := hash
    size := size
    type := mimeType
    uploaded := uploaded }

/-! #### Range parsing (`parseRangeHeader`)

The regex `/bytes=(\d+)-(\d*)/` is unanchored: the searcher tries each
position, succeeding at the first index where `bytes=` is followed by one or
more digits, a dash, and zero or more digits. -/

/-- Numeric value of a digit run (what `parseInt` returns on pure digits). -/
def digitsToNat (ds : List Char) : Nat :=
  ds.foldl (fun acc c => acc * 10 + (c.toNat - 48)) 0

/-- Try to match `bytes=(\d+)-(\d*)` at the head of the character list. -/
def rangeMatchHere (l : List Char) : Option (Nat × Option Nat) :=
  if "bytes=".data.isPrefixOf l then
    let rest := l.drop 6
    let ds := rest.takeWhile isDecDigit
    if ds.isEmpty then none
    else
      match rest.drop ds.length with
      | '-' :: rest2 =>
        let es := rest2.takeWhile isDecDigit
        some (digitsToNat ds, if es.isEmpty then none else some (digitsToNat es))
      | _ => none
  else none

/-- Leftmost match of the range regex. -/
def rangeSearch : List Char → Option (Nat × Option Nat)
  | [] => none
  | c :: cs =>
    match rangeMatchHere (c :: cs) with
    | some r => some r
    | none => rangeSearch cs

/-- `parseRangeHeader(rangeHeader, fileSize)`: leftmost regex match, default
end `fileSize - 1` (which is `-1` for an empty file), then the validation
`start >= 0 && start < fileSize && end >= start && end < fileSize`. -/
def parseRangeHeader (rangeHeader : String) (fileSize : Nat) : Option (Nat × Nat) :=
  match rangeSearch rangeHeader.data with
  | none => none
  | some (start, endOpt) =>
    let endV : Int := match endOpt with
      | some e => (e : Int)
      | none => (fileSize : Int) - 1
    if (start : Int) < fileSize ∧ endV ≥ start ∧ endV < fileSize then
      some (start, endV.toNat)
    else none

/-- `createBlobHeaders(mimeType, fileSize)`. -/
def createBlobHeaders (mimeType : String) (fileSize : Nat) : List (String × String) :=
  addCorsHeaders [("Content-Type", mimeType),
                  ("Content-Length", toString fileSize),
                  ("Accept-Ranges", "bytes")]

/-- Bytes served by `createReadStream(filePath, \x7bstart, end\x7d)`:
positions `start..end` inclusive. -/
def streamRange (content : Bytes) (start endIncl : Nat) : Bytes :=
  (content.drop start).take (endIncl - start + 1)

/-- `handleRangeRequest(filePath, range, headers, fileSize)`. -/
def handleRangeRequest (content : Bytes) (range : Nat × Nat)
    (headers : List (String × String)) (fileSize : Nat) : HttpResponse :=
  let start := range.1
  let endIncl := range.2
  let contentLength := endIncl - start + 1
  createCorsResponse (.bytes (streamRange content start endIncl)) 206
    (objMerge headers
      [("Content-Range", "bytes " ++ toString start ++ "-" ++ toString endIncl ++ "/" ++
          toString fileSize),
       ("Content-Length", toString contentLength)])

/-- `handleInvalidRange(headers, fileSize)`: the call site passes the header
object (with `Content-Range`) as the third argument, which lands in the
`reason?: string` parameter of `createCorsErrorResponse`; the fourth
parameter is undefined. -/
def handleInvalidRange (headers : List (String × String)) (fileSize : Nat) : HttpResponse :=
  createCorsErrorResponse "Invalid range" 416
    (.obj (objMerge headers [("Content-Range", "bytes */" ++ toString fileSize)]))
    none

/-- `handleBlobGet(req)` with an already-parsed URL path and `range` header
(`rangeHeader = some ""` is falsy, like a missing header). -/
def handleBlobGet (env : RouteEnv) (disk : FDisk) (cache : Cache) (pathname : String)
    (rangeHeader : Option String) : HttpResponse :=
  match parseBlobPath pathname with
  | none => createCorsErrorResponse "Invalid path. Expected /<sha256>[.ext]" 400 .undef none
  | some blobInfo =>
    match findBlobByHash env.blobDir disk cache blobInfo.hash with
    | none => createCorsErrorResponse "Blob not found" 404 .undef none
    | some foundFilePath =>
      let content := ((alookup disk foundFilePath).map FileData.content).getD []
      let fileSize := content.length
      let mimeType := getMimeType env foundFilePath blobInfo.extension
      let headers := createBlobHeaders mimeType fileSize
      match rangeHeader with
      | some rh =>
        if rh = "" then createCorsResponse (.bytes content) 200 headers
        else
          match parseRangeHeader rh fileSize with
          | some range => handleRangeRequest content range headers fileSize
          | none => handleInvalidRange headers fileSize
      | none => createCorsResponse (.bytes content) 200 headers

/-- `handleUpload(req)`: early auth, read body, size limit, hash, `x`-tag
check, store, respond with the descriptor.  Returns the response and the new
state. -/
def handleUpload (env : RouteEnv) (auth : AuthHeader) (body : Bytes)
    (contentType : Option String) (disk : FDisk) (cache : Cache) :
    HttpResponse × FDisk × Cache :=
  match validateAuthorizationEarly env.auth auth "upload" with
  | .error resp => (resp, disk, cache)
  | .ok authOk =>
    if body.length = 0 then
      (createAuthErrorResponse "Empty request body" 400, disk, cache)
    else
      match env.maxFileSize with
      | some maxFileSize =>
        if maxFileSize ≠ 0 ∧ body.length > maxFileSize then
          (createAuthErrorResponse
            ("File too large. Maximum size: " ++ toString maxFileSize ++ " bytes") 413,
           disk, cache)
        else handleUploadAfterSize env authOk body contentType disk cache
      | none => handleUploadAfterSize env authOk body contentType disk cache
where
  handleUploadAfterSize (env : RouteEnv) (authOk : AuthOk) (body : Bytes)
      (contentType : Option String) (disk : FDisk) (cache : Cache) :
      HttpResponse × FDisk × Cache :=
    let hash := sha256Hex body
    if ¬ validateAuthorizationHash authOk.event [hash] then
      (createAuthErrorResponse "Authorization hash does not match uploaded content" 400,
       disk, cache)
    else
      let mimeType := determineMimeType env none contentType
      let filename := generateFilename env hash contentType none
      let stored := storeBlobForPubkey env.blobDir authOk.pubkey filename body
        env.auth.nowMs disk cache
      let blobDescriptor := createBlobDescriptor env hash body.length mimeType
        (env.auth.nowMs / 1000) (some filename)
      ({ status := 200
         headers := addCorsHeaders [("Content-Type", "application/json")]
         body := .jsonDescriptor blobDescriptor },
       stored.2.1, stored.2.2)

/-- `handleDelete(req, hash)`: hash format, delete authorization, then
`deleteBlobByHash`; `false` becomes a 404, `true` a 200 message. -/
def handleDelete (env : RouteEnv) (unlinkOk : String → Bool) (saveOk : Bool)
    (auth : AuthHeader) (hash : String) (disk : FDisk) (cache : Cache) :
    HttpResponse × FDisk × Cache :=
  if ¬ isValidSha256 hash then
    (createAuthErrorResponse "Invalid SHA256 hash format" 400, disk, cache)
  else
    match validateAuthorization env.auth auth "delete" (some [hash]) with
    | .error resp => (resp, disk, cache)
    | .ok _ =>
      let result := deleteBlobByHash env.blobDir unlinkOk saveOk disk cache hash
      if ¬ result.1 then
        (createAuthErrorResponse "Blob not found" 404, result.2.1, result.2.2)
      else
        ({ status := 200
           headers := [("Content-Type", "application/json")]
           body := .jsonMessage "Blob deleted successfully" },
         result.2.1, result.2.2)

/-- `handleList(req, pubkey)`: pubkey format, `getBlobsByPubkey`, the
`since`/`until` filters (`blob.mtime / 1000 >= since` and
`blob.mtime / 1000 <= until`, exact rational comparisons embedded over `Int`),
then the descriptor mapping.  An absent or empty query value is falsy and a
non-numeric one gives `NaN`; both skip the corresponding filter. -/
def handleList (env : RouteEnv) (pubkey : String) (sinceQ untilQ : Option String)
    (cache : Cache) : HttpResponse :=
  if ¬ (isValidPubkey pubkey) then
    createAuthErrorResponse "Invalid pubkey format" 400
  else
    let blobs0 := getBlobsByPubkey pubkey cache
    let blobs1 :=
      match sinceQ with
      | some s =>
        if s = "" then blobs0
        else
          match jsParseInt s with
          | some sinceTimestamp => blobs0.filter (fun b => (b.mtime : Int) ≥ 1000 * sinceTimestamp)
          | none => blobs0
      | none => blobs0
    let blobs2 :=
      match untilQ with
      | some s =>
        if s = "" then blobs1
        else
          match jsParseInt s with
          | some untilTimestamp => blobs1.filter (fun b => (b.mtime : Int) ≤ 1000 * untilTimestamp)
          | none => blobs1
      | none => blobs1
    let blobDescriptors := blobs2.map (fun b =>
      let filename := jsBasename b.relativePath
      createBlobDescriptor env b.hash b.size (determineMimeType env (some filename) none)
        (b.mtime / 1000) (some filename))
    { status := 200
      headers := addCorsHeaders [("Content-Type", "application/json")]
      body := .jsonDescriptors blobDescriptors }

/-! ### Concrete test fixtures -/

/-- A syntactically valid 64-hex-character hash. -/
def hashA : String := ⟨List.replicate 64 'a'⟩

/-- A permissive authorization environment: every signature verifies, one
whitelisted pubkey, clock at 2 000 000 000 000 ms. -/
def wAuthEnv : AuthEnv :=
  { verifySig := fun _ => true, whitelist := ["pk1"], nowMs := 2000000000000 }

/-- A concrete route environment over `wAuthEnv`. -/
def wEnv : RouteEnv :=
  { auth := wAuthEnv
    blobDir := "blobs"
    baseUrl := "http://localhost:3000"
    maxFileSize := some 104857600
    mimeGetType := fun _ => none
    mimeGetExtension := fun _ => none }

/-- An expired upload authorization event (expiration 1 < now). -/
def wUploadExpiredEvent : NostrEvent :=
  { id := "i", pubkey := "pk1", created_at := 0, kind := 24242
    tags := [["t", "upload"], ["x", hashA], ["expiration", "1"]]
    content := "", sig := "s" }

/-- An expired delete authorization event (expiration 1 < now). -/
def wDeleteExpiredEvent : NostrEvent :=
  { id := "i", pubkey := "pk1", created_at := 0, kind := 24242
    tags := [["t", "delete"], ["x", hashA], ["expiration", "1"]]
    content := "", sig := "s" }

/-- An upload authorization event with a non-numeric expiration value. -/
def wNanExpirationEvent : NostrEvent :=
  { id := "i", pubkey := "pk1", created_at := 0, kind := 24242
    tags := [["t", "upload"], ["x", hashA], ["expiration", "abc"]]
    content := "", sig := "s" }

/-! ### Path and association-list lemmas -/

theorem relativeOf_joinPath (b r : String) : relativeOf b (joinPath b r) = r := by
  simp only [relativeOf, joinPath]
  have : (b.data ++ '/' :: r.data).drop (b.data.length + 1)
      = ((b.data ++ ['/']) ++ r.data).drop (b.data.length + 1) := by simp
  rw [this]
  have hlen : (b.data ++ ['/']).length = b.data.length + 1 := by simp
  rw [← hlen, List.drop_left]

theorem joinPath_inj (b : String) {r s : String} (h : joinPath b r = joinPath b s) : r = s := by
  have := congrArg (relativeOf b) h
  rwa [relativeOf_joinPath, relativeOf_joinPath] at this

theorem joinPath_assoc (a b c : String) :
    joinPath (joinPath a b) c = joinPath a (joinPath b c) := by
  simp [joinPath]

section AssocLemmas

variable {β : Type}

theorem alookup_nil (k : String) : alookup ([] : List (String × β)) k = none := rfl

theorem alookup_cons (p : String × β) (l : List (String × β)) (k : String) :
    alookup (p :: l) k = if p.1 = k then some p.2 else alookup l k := by
  by_cases h : p.1 = k
  · simp [alookup, List.find?_cons_of_pos, h]
  · simp only [alookup]
    rw [List.find?_cons_of_neg]
    · simp [h]
    · simp [h]

theorem aset_cons_eq (v' v : β) (k : String) (l : List (String × β)) :
    aset ((k, v') :: l) k v = (k, v) :: l := by
  simp [aset]

theorem aset_cons_ne (k' : String) (v' v : β) (k : String) (l : List (String × β))
    (h : k' ≠ k) : aset ((k', v') :: l) k v = (k', v') :: aset l k v := by
  simp [aset, h]

theorem alookup_aset_self (l : List (String × β)) (k : String) (v : β) :
    alookup (aset l k v) k = some v := by
  induction l with
  | nil => simp [aset, alookup_cons]
  | cons p rest ih =>
    by_cases h : p.1 = k
    · obtain ⟨k', v'⟩ := p
      subst h
      rw [aset_cons_eq, alookup_cons]
      simp
    · obtain ⟨k', v'⟩ := p
      rw [aset_cons_ne k' v' v k rest h, alookup_cons]
      simpa [h] using ih

theorem alookup_aset_ne (l : List (String × β)) (k k' : String) (v : β) (h : k' ≠ k) :
    alookup (aset l k v) k' = alookup l k' := by
  induction l with
  | nil => simp [aset, alookup_cons, alookup_nil, Ne.symm h]
  | cons p rest ih =>
    by_cases hp : p.1 = k
    · obtain ⟨a, b⟩ := p
      subst hp
      rw [aset_cons_eq, alookup_cons, alookup_cons]
      simp [Ne.symm h]
    · obtain ⟨a, b⟩ := p
      rw [aset_cons_ne a b v k rest hp, alookup_cons, alookup_cons]
      by_cases ha : a = k'
      · simp [ha]
      · simp [ha, ih]

theorem mem_aset {l : List (String × β)} {k : String} {v : β} {x : String × β}
    (h : x ∈ aset l k v) : x = (k, v) ∨ x ∈ l := by
  induction l with
  | nil => simpa [aset] using h
  | cons p rest ih =>
    by_cases hp : p.1 = k
    · obtain ⟨a, b⟩ := p
      subst hp
      rw [aset_cons_eq] at h
      rcases List.mem_cons.mp h with h1 | h2
      · exact Or.inl h1
      · exact Or.inr (List.mem_cons_of_mem _ h2)
    · obtain ⟨a, b⟩ := p
      rw [aset_cons_ne a b v k rest hp] at h
      rcases List.mem_cons.mp h with h1 | h2
      · exact Or.inr (h1 ▸ List.mem_cons_self _ _)
      · rcases ih h2 with h3 | h4
        · exact Or.inl h3
        · exact Or.inr (List.mem_cons_of_mem _ h4)

theorem self_mem_aset (l : List (String × β)) (k : String) (v : β) :
    (k, v) ∈ aset l k v := by
  induction l with
  | nil => simp [aset]
  | cons p rest ih =>
    by_cases hp : p.1 = k
    · obtain ⟨a, b⟩ := p
      subst hp
      rw [aset_cons_eq]
      exact List.mem_cons_self _ _
    · obtain ⟨a, b⟩ := p
      rw [aset_cons_ne a b v k rest hp]
      exact List.mem_cons_of_mem _ ih

theorem mem_adel {l : List (String × β)} {k : String} {x : String × β}
    (hx : x ∈ l) (hne : x.1 ≠ k) : x ∈ adel l k := by
  simp only [adel, List.mem_filter]
  exact ⟨hx, by simpa using hne⟩

theorem mem_of_mem_adel {l : List (String × β)} {k : String} {x : String × β}
    (hx : x ∈ adel l k) : x ∈ l ∧ x.1 ≠ k := by
  simp only [adel, List.mem_filter] at hx
  exact ⟨hx.1, by simpa using hx.2⟩

theorem alookup_adel_self (l : List (String × β)) (k : String) :
    alookup (adel l k) k = none := by
  simp only [alookup, Option.map_eq_none', List.find?_eq_none]
  intro x hx
  have := (mem_of_mem_adel hx).2
  simpa using this

theorem alookup_adel_ne (l : List (String × β)) (k k' : String) (h : k' ≠ k) :
    alookup (adel l k) k' = alookup l k' := by
  induction l with
  | nil => rfl
  | cons p rest ih =>
    by_cases hp : p.1 = k
    · have : adel (p :: rest) k = adel rest k := by
        simp [adel, List.filter_cons, hp]
      rw [this, ih, alookup_cons]
      have : p.1 ≠ k' := by rw [hp]; exact Ne.symm h
      simp [this]
    · have : adel (p :: rest) k = p :: adel rest k := by
        simp [adel, List.filter_cons, hp]
      rw [this, alookup_cons, alookup_cons, ih]

theorem alookup_eq_some_iff_head {l : List (String × β)} {k : String} {v : β} :
    alookup l k = some v ↔
      ∃ pre post, l = pre ++ (k, v) :: post ∧ ∀ x ∈ pre, x.1 ≠ k := by
  constructor
  · intro h
    simp only [alookup, Option.map_eq_some'] at h
    obtain ⟨⟨k', v'⟩, hfind, hv⟩ := h
    have hk : k' = k := by
      have := List.find?_some hfind
      simpa using this
    subst hk hv
    obtain ⟨-, pre, post, hsplit, hpre⟩ := List.find?_eq_some.mp hfind
    refine ⟨pre, post, hsplit, fun x hx => ?_⟩
    have := hpre x hx
    simpa using this
  · rintro ⟨pre, post, rfl, hpre⟩
    simp only [alookup]
    rw [List.find?_append]
    have h1 : List.find? (fun p => p.1 = k) pre = none :=
      List.find?_eq_none.mpr (fun x hx => by simpa using hpre x hx)
    rw [h1]
    simp [List.find?_cons_of_pos]

end AssocLemmas

/-! ### Behaviour of the delete loop -/

theorem deleteLoop_skip (blobDir : String) (unlinkOk : String → Bool) (saveOk : Bool)
    (hash : String) (disk : FDisk) (cache : Cache) (x : String × CacheEntry)
    (rest : List (String × CacheEntry))
    (hx : ¬(x.2.hash = hash ∧ fexists disk (joinPath blobDir x.1) = true)) :
    deleteLoop blobDir unlinkOk saveOk hash disk cache (x :: rest)
      = deleteLoop blobDir unlinkOk saveOk hash disk cache rest := by
  obtain ⟨p, e⟩ := x
  by_cases hh : e.hash = hash
  · have hne : fexists disk (joinPath blobDir p) = false := by
      cases hfe : fexists disk (joinPath blobDir p) with
      | true => exact absurd ⟨hh, hfe⟩ hx
      | false => rfl
    simp [deleteLoop, hh, hne]
  · simp [deleteLoop, hh]

theorem deleteLoop_hit (blobDir : String) (unlinkOk : String → Bool) (saveOk : Bool)
    (hash : String) (disk : FDisk) (cache : Cache) (p0 : String) (e0 : CacheEntry)
    (rest : List (String × CacheEntry))
    (he0 : e0.hash = hash) (hex : fexists disk (joinPath blobDir p0) = true) :
    deleteLoop blobDir unlinkOk saveOk hash disk cache ((p0, e0) :: rest)
      = if unlinkOk (joinPath blobDir p0) = true then
          ((if saveOk then true else false),
            adel disk (joinPath blobDir p0), adel cache p0)
        else (false, disk, cache) := by
  by_cases hu : unlinkOk (joinPath blobDir p0) = true
  · simp [deleteLoop, he0, hex, hu]
  · simp [deleteLoop, he0, hex, hu]

theorem deleteLoop_first (blobDir : String) (unlinkOk : String → Bool) (saveOk : Bool)
    (hash : String) (disk : FDisk) (cache : Cache) (pre : List (String × CacheEntry))
    (p0 : String) (e0 : CacheEntry) (post : List (String × CacheEntry))
    (hpre : ∀ x ∈ pre, ¬(x.2.hash = hash ∧ fexists disk (joinPath blobDir x.1) = true))
    (he0 : e0.hash = hash) (hex : fexists disk (joinPath blobDir p0) = true) :
    deleteLoop blobDir unlinkOk saveOk hash disk cache (pre ++ (p0, e0) :: post)
      = if unlinkOk (joinPath blobDir p0) = true then
          ((if saveOk then true else false),
            adel disk (joinPath blobDir p0), adel cache p0)
        else (false, disk, cache) := by
  induction pre with
  | nil =>
    simpa using deleteLoop_hit blobDir unlinkOk saveOk hash disk cache p0 e0 post he0 hex
  | cons x rest ih =>
    rw [List.cons_append,
      deleteLoop_skip blobDir unlinkOk saveOk hash disk cache x _
        (hpre x (List.mem_cons_self _ _))]
    exact ih (fun y hy => hpre y (List.mem_cons_of_mem _ hy))

/-! ### Claim C8: cache loading degrades to empty, never throws -/

/-- C8: for every on-disk snapshot content — absent file, unparseable
content, or a valid mapping — `loadCache` returns normally: the parsed
mapping on success and the empty mapping on absence or parse failure; no
exception reaches the caller. -/
theorem C8_loadCache_never_throws
    (snapshot : Option String) (parse : String → Except String Cache) :
    (snapshot = none → loadCache snapshot parse = []) ∧
    (∀ s e, snapshot = some s → parse s = .error e → loadCache snapshot parse = []) ∧
    (∀ s m, snapshot = some s → parse s = .ok m → loadCache snapshot parse = m) := by
  refine ⟨fun h => by simp [loadCache, h], ?_, ?_⟩
  · intro s e hs hp
    subst hs
    simp [loadCache, hp]
  · intro s m hs hp
    subst hs
    simp [loadCache, hp]

/-- Witness for C8 at concrete snapshots: an absent file, a corrupt snapshot,
and a well-formed one. -/
theorem C8_loadCache_never_throws_witness :
    loadCache none (fun _ => .ok []) = [] ∧
    loadCache (some "corrupt \x7b") (fun _ => .error "SyntaxError") = [] ∧
    loadCache (some "snapshot") (fun _ => .ok [("p", ⟨"h", 1, 2⟩)]) = [("p", ⟨"h", 1, 2⟩)] :=
  ⟨(C8_loadCache_never_throws none (fun _ => .ok [])).1 rfl,
   (C8_loadCache_never_throws (some "corrupt \x7b") (fun _ => .error "SyntaxError")).2.1
     "corrupt \x7b" "SyntaxError" rfl rfl,
   (C8_loadCache_never_throws (some "snapshot") (fun _ => .ok [("p", ⟨"h", 1, 2⟩)])).2.2
     "snapshot" [("p", ⟨"h", 1, 2⟩)] rfl rfl⟩

/-! ### Claim C9: a NaN expiration value disables the expiration check -/

/-- C9: when the `expiration` tag value does not parse as an integer
(`parseInt` yields NaN), the expiration check is skipped and the event is
treated as unexpired: `validateAuthorizationEarly` succeeds, and
`isValidBlossomAuth` returns true, whenever the kind, `t`-tag, signature,
whitelist, and `x`-tag checks pass — for every clock value `nowMs`. -/
theorem C9_nan_expiration_skipped
    (env : AuthEnv) (e : NostrEvent) (authType : String) (s : String)
    (hexp : tagValue e "expiration" = some s)
    (hnan : jsParseInt s = none)
    (hsig : env.verifySig e = true)
    (hkind : e.kind = 24242)
    (ht : hasTTag e authType = true)
    (hwl : env.whitelist.contains e.pubkey = true) :
    validateAuthorizationEarly env (some (some e)) authType = .ok ⟨e.pubkey, e⟩ ∧
    (∀ hashes, xTagMatches e hashes = true →
      isValidBlossomAuth env e authType (some hashes) = true) := by
  have hnotexp : isExpired env e = false := by
    simp [isExpired, hexp, hnan]
  have hwl' : e.pubkey ∈ env.whitelist := by simpa using hwl
  constructor
  · simp [validateAuthorizationEarly, hsig, hkind, ht, hnotexp, hwl']
  · intro hashes hmatch
    by_cases hbranch : (authType = "upload" ∨ authType = "delete") ∧ (some hashes).isSome
    · simp [isValidBlossomAuth, hkind, ht, hbranch, hmatch, hnotexp]
    · simp only [isValidBlossomAuth, hkind, ht, hbranch]
      simp [hnotexp, hmatch]

/-- Witness for C9: an event whose expiration value is `"abc"` passes both
validators under a far-future clock. -/
theorem C9_nan_expiration_skipped_witness :
    validateAuthorizationEarly wAuthEnv (some (some wNanExpirationEvent)) "upload"
      = .ok ⟨"pk1", wNanExpirationEvent⟩ ∧
    isValidBlossomAuth wAuthEnv wNanExpirationEvent "upload" (some [hashA]) = true := by
  have h := C9_nan_expiration_skipped wAuthEnv wNanExpirationEvent "upload" "abc"
    (by decide) (by decide) (by decide) (by decide) (by decide) (by decide)
  exact ⟨h.1, h.2 [hashA] (by decide)⟩

/-! ### Claim C5: a past expiration tag causes rejection (corrected) -/

/-- C5 counterexample: a delete request with an expired but otherwise fully
valid authorization event is rejected, but with the message
`"Invalid delete authorization event"` (the delete path validates through
`isValidBlossomAuth`, whose failure is reported uniformly), not with
`"Authorization event has expired"` as the claim states. -/
theorem C5_counterexample :
    isExpired wAuthEnv wDeleteExpiredEvent = true ∧
    wDeleteExpiredEvent.kind = 24242 ∧
    hasTTag wDeleteExpiredEvent "delete" = true ∧
    xTagMatches wDeleteExpiredEvent [hashA] = true ∧
    wAuthEnv.whitelist.contains wDeleteExpiredEvent.pubkey = true ∧
    (handleDelete wEnv (fun _ => true) true (some (some wDeleteExpiredEvent)) hashA [] []).1
      ≠ createAuthErrorResponse "Authorization event has expired" 401 ∧
    (handleDelete wEnv (fun _ => true) true (some (some wDeleteExpiredEvent)) hashA [] []).1
      = createAuthErrorResponse "Invalid delete authorization event" 401 := by
  decide

/-- C5 amended: an upload or delete request whose authorization event has an
`expiration` tag parsing to an integer strictly below the current time is
rejected even when signature, kind, `t` tag and whitelist are valid, and the
state is unchanged (no file written or removed); the upload path fails with
`"Authorization event has expired"`, the delete path with
`"Invalid delete authorization event"`. -/
theorem C5_expired_event_rejected
    (env : RouteEnv) (e : NostrEvent) (s : String) (exp : Int)
    (hexp : tagValue e "expiration" = some s)
    (hparse : jsParseInt s = some exp)
    (hlt : 1000 * exp < (env.auth.nowMs : Int))
    (hsig : env.auth.verifySig e = true)
    (hkind : e.kind = 24242)
    (body : Bytes) (ct : Option String) (disk : FDisk) (cache : Cache) :
    (hasTTag e "upload" = true →
      handleUpload env (some (some e)) body ct disk cache
        = (createAuthErrorResponse "Authorization event has expired" 401, disk, cache)) ∧
    (hasTTag e "delete" = true → ∀ h unlinkOk saveOk, isValidSha256 h = true →
      handleDelete env unlinkOk saveOk (some (some e)) h disk cache
        = (createAuthErrorResponse "Invalid delete authorization event" 401, disk, cache)) := by
  have hexpired : isExpired env.auth e = true := by
    simp only [isExpired, hexp, hparse]
    simpa using hlt
  constructor
  · intro ht
    have hval : validateAuthorizationEarly env.auth (some (some e)) "upload"
        = .error (createAuthErrorResponse "Authorization event has expired" 401) := by
      simp [validateAuthorizationEarly, hsig, hkind, ht, hexpired]
    simp [handleUpload, hval]
  · intro ht h unlinkOk saveOk hvalid
    have hbad : isValidBlossomAuth env.auth e "delete" (some [h]) = false := by
      by_cases hx : xTagMatches e [h] = true
      · simp [isValidBlossomAuth, hkind, ht, hx, hexpired]
      · simp [isValidBlossomAuth, hkind, ht, hx, hexpired]
    have hval : validateAuthorization env.auth (some (some e)) "delete" (some [h])
        = .error (createAuthErrorResponse "Invalid delete authorization event" 401) := by
      simp [validateAuthorization, hsig, hbad]
    simp [handleDelete, hvalid, hval]

/-- Witness for C5 amended: the expired upload event and the expired delete
event are both rejected at the concrete environment, with the states (empty
disk, empty cache) untouched. -/
theorem C5_expired_event_rejected_witness :
    handleUpload wEnv (some (some wUploadExpiredEvent)) [1] none [] []
      = (createAuthErrorResponse "Authorization event has expired" 401, [], []) ∧
    handleDelete wEnv (fun _ => true) true (some (some wDeleteExpiredEvent)) hashA [] []
      = (createAuthErrorResponse "Invalid delete authorization event" 401, [], []) := by
  constructor
  · exact (C5_expired_event_rejected wEnv wUploadExpiredEvent "1" 1
      (by decide) (by decide) (by decide) (by decide) (by decide)
      [1] none [] []).1 (by decide)
  · exact (C5_expired_event_rejected wEnv wDeleteExpiredEvent "1" 1
      (by decide) (by decide) (by decide) (by decide) (by decide)
      [1] none [] []).2 (by decide) hashA (fun _ => true) true (by decide)

/-! ### Claim C4: hash lookup returns the first live match, misses are 404 -/

/-- C4: `findBlobByHash` returns the full path of the first cache entry in
iteration order whose hash matches and whose file exists on disk at call
time; when no cached entry with that hash has an existing file (including a
cached entry whose file is missing) it returns `none`, and the retrieval
handler then responds 404 "Blob not found". -/
theorem C4_findBlobByHash_first_live_match
    (env : RouteEnv) (disk : FDisk) (cache : Cache) (h : String) :
    (∀ pre p e post,
      cache = pre ++ (p, e) :: post →
      e.hash = h →
      fexists disk (joinPath env.blobDir p) = true →
      (∀ x ∈ pre, ¬(x.2.hash = h ∧ fexists disk (joinPath env.blobDir x.1) = true)) →
      findBlobByHash env.blobDir disk cache h = some (joinPath env.blobDir p)) ∧
    ((∀ x ∈ cache, x.2.hash = h → fexists disk (joinPath env.blobDir x.1) = false) →
      findBlobByHash env.blobDir disk cache h = none ∧
      ∀ pathname info rangeHeader,
        parseBlobPath pathname = some info → info.hash = h →
        handleBlobGet env disk cache pathname rangeHeader
          = createCorsErrorResponse "Blob not found" 404 .undef none) := by
  constructor
  · intro pre p e post hsplit he hex hpre
    subst hsplit
    unfold findBlobByHash
    rw [List.find?_append]
    have h1 : List.find? (fun pe => pe.2.hash = h && fexists disk (joinPath env.blobDir pe.1))
        pre = none := by
      rw [List.find?_eq_none]
      intro x hx
      have := hpre x hx
      simp only [Bool.and_eq_true, decide_eq_true_eq, not_and] at this ⊢
      intro hxh
      intro hxe
      exact this hxh hxe
    have h2 : List.find? (fun pe => pe.2.hash = h && fexists disk (joinPath env.blobDir pe.1))
        ((p, e) :: post) = some (p, e) := by
      apply List.find?_cons_of_pos
      simp [he, hex]
    rw [h1, h2]
    simp
  · intro hmiss
    have hnone : findBlobByHash env.blobDir disk cache h = none := by
      unfold findBlobByHash
      have : List.find? (fun pe => pe.2.hash = h && fexists disk (joinPath env.blobDir pe.1))
          cache = none := by
        rw [List.find?_eq_none]
        intro x hx
        simp only [Bool.and_eq_true, decide_eq_true_eq, not_and]
        intro hxh
        rw [hmiss x hx hxh]
        simp
      rw [this]
    refine ⟨hnone, ?_⟩
    intro pathname info rangeHeader hparse hinfo
    simp [handleBlobGet, hparse, hinfo, hnone]

/-- Witness for C4: a cache with a dead entry (file missing) before a live
entry for the same hash — the live one is found; and a cache whose only
matching entry has no file — a miss, and a 404 from the handler. -/
theorem C4_findBlobByHash_first_live_match_witness :
    findBlobByHash "blobs"
      [("blobs/p2", ⟨[1], 2⟩)]
      [("p1", ⟨hashA, 1, 1⟩), ("p2", ⟨hashA, 2, 1⟩)] hashA = some "blobs/p2" ∧
    findBlobByHash "blobs" [] [("p1", ⟨hashA, 1, 1⟩)] hashA = none ∧
    handleBlobGet wEnv [] [("p1", ⟨hashA, 1, 1⟩)] ("/" ++ hashA) none
      = createCorsErrorResponse "Blob not found" 404 .undef none := by
  refine ⟨?_, ?_, ?_⟩
  · exact (C4_findBlobByHash_first_live_match wEnv [("blobs/p2", ⟨[1], 2⟩)]
      [("p1", ⟨hashA, 1, 1⟩), ("p2", ⟨hashA, 2, 1⟩)] hashA).1
      [("p1", ⟨hashA, 1, 1⟩)] "p2" ⟨hashA, 2, 1⟩ [] (by decide) (by decide) (by decide)
      (by decide)
  · exact ((C4_findBlobByHash_first_live_match wEnv [] [("p1", ⟨hashA, 1, 1⟩)] hashA).2
      (by decide)).1
  · exact ((C4_findBlobByHash_first_live_match wEnv [] [("p1", ⟨hashA, 1, 1⟩)] hashA).2
      (by decide)).2 ("/" ++ hashA) ⟨hashA, none⟩ none (by decide) (by decide)

/-! ### Claim C2: move detection (corrected) -/

/-- Disk for the C2 counterexample: `p1` and the new file `p3` exist, `p2`
does not. -/
def c2Disk : FDisk := [("blobs/p1", ⟨[7], 5⟩), ("blobs/p3", ⟨[7], 9⟩)]

/-- Cache for the C2 counterexample: `p1` (file present) and `p2` (file
missing) both carry the hash and size of byte `7`. -/
def c2Cache : Cache :=
  [("p1", ⟨sha256Hex [7], 5, 1⟩), ("p2", ⟨sha256Hex [7], 99, 1⟩)]

/-- C2 counterexample: the dirty file `p3` has the same hash and size as the
stale entry `p2`, whose file no longer exists — yet `processFile` does not
delete `p2`, because the `find` in the move check stops at the earlier entry
`p1` (same hash and size, file still present) and only tests that one for
existence.  The claim's "deletes that stale entry" is false here. -/
theorem C2_counterexample :
    alookup c2Cache "p3" = none ∧
    (∃ e, alookup c2Cache "p2" = some e ∧ e.hash = sha256Hex [7] ∧ e.size = 1) ∧
    fexists c2Disk (joinPath "blobs" "p2") = false ∧
    (processFile "blobs" c2Disk c2Cache "blobs/p3").2 = true ∧
    alookup (processFile "blobs" c2Disk c2Cache "blobs/p3").1 "p2"
      = some ⟨sha256Hex [7], 99, 1⟩ := by
  refine ⟨by decide, ⟨⟨sha256Hex [7], 99, 1⟩, by decide, rfl, rfl⟩, by decide, ?_, ?_⟩
  · decide
  · decide

/-- C2 amended: `processFile` inspects only the *first* cache entry (in
iteration order) with identical hash and size at a different path, and
deletes it exactly when that entry's file no longer exists; hence when the
moved-from entry is the first (in particular the only) such match, a rescan
leaves exactly one entry for that content, keyed by the new path, and the
old path's entry is gone. -/
theorem C2_move_detection_first_match
    (blobDir : String) (disk : FDisk) (cache : Cache) (filePath : String) (fd : FileData)
    (rel hash : String) (size : Nat)
    (pre post : List (String × CacheEntry)) (p0 : String) (e0 : CacheEntry)
    (hdisk : alookup disk filePath = some fd)
    (hrel : rel = relativeOf blobDir filePath)
    (hhash : hash = sha256Hex fd.content)
    (hsize : size = fd.content.length)
    (hdirty : alookup cache rel = none)
    (hsplit : cache = pre ++ (p0, e0) :: post)
    (hp0 : p0 ≠ rel) (he0h : e0.hash = hash) (he0s : e0.size = size)
    (hpre : ∀ x ∈ pre, ¬(x.1 ≠ rel ∧ x.2.hash = hash ∧ x.2.size = size))
    (hgone : fexists disk (joinPath blobDir p0) = false) :
    processFile blobDir disk cache filePath
      = (aset (adel cache p0) rel ⟨hash, fd.mtime, size⟩, true) ∧
    alookup (processFile blobDir disk cache filePath).1 p0 = none ∧
    alookup (processFile blobDir disk cache filePath).1 rel
      = some ⟨hash, fd.mtime, size⟩ ∧
    ((∀ x ∈ pre ++ post, ¬(x.2.hash = hash ∧ x.2.size = size)) →
      ∀ x ∈ (processFile blobDir disk cache filePath).1,
        x.2.hash = hash ∧ x.2.size = size → x.1 = rel) := by
  have hfind : cache.find? (fun pe =>
      pe.1 ≠ rel && pe.2.hash = hash && pe.2.size = size) = some (p0, e0) := by
    subst hsplit
    rw [List.find?_append]
    have h1 : List.find? (fun pe => pe.1 ≠ rel && pe.2.hash = hash && pe.2.size = size)
        pre = none := by
      rw [List.find?_eq_none]
      intro x hx
      have := hpre x hx
      simp only [Bool.and_eq_true, decide_eq_true_eq, bne_iff_ne, ne_eq] at this ⊢
      intro hcond
      exact this ⟨hcond.1.1, hcond.1.2, hcond.2⟩
    have h2 : List.find? (fun pe => pe.1 ≠ rel && pe.2.hash = hash && pe.2.size = size)
        ((p0, e0) :: post) = some (p0, e0) := by
      apply List.find?_cons_of_pos
      simp [hp0, he0h, he0s]
    rw [h1, h2]
    simp
  have hmain : processFile blobDir disk cache filePath
      = (aset (adel cache p0) rel ⟨hash, fd.mtime, size⟩, true) := by
    unfold processFile
    rw [hdisk]
    simp only [← hrel, ← hsize, hdirty]
    rw [← hhash]
    simp only [hfind]
    simp [hgone]
  refine ⟨hmain, ?_, ?_, ?_⟩
  · rw [hmain]
    simp only
    rw [alookup_aset_ne _ _ _ _ hp0, alookup_adel_self]
  · rw [hmain]
    simp only
    rw [alookup_aset_self]
  · intro honly x hx hcond
    rw [hmain] at hx
    simp only at hx
    rcases mem_aset hx with hx1 | hx2
    · rw [hx1]
    · have hx3 := mem_of_mem_adel hx2
      have hxmem : x ∈ pre ++ post := by
        subst hsplit
        rcases List.mem_append.mp hx3.1 with hl | hr
        · exact List.mem_append.mpr (Or.inl hl)
        · rcases List.mem_cons.mp hr with hc | hc
          · exact absurd (congrArg Prod.fst hc) hx3.2
          · exact List.mem_append.mpr (Or.inr hc)
      exact absurd hcond (honly x hxmem)

/-- Witness for C2 amended: a genuine move — the only entry with that hash
and size is the old path `p1`, whose file is gone; processing the new file
`p3` deletes `p1` and leaves exactly one entry for the content, at `p3`. -/
theorem C2_move_detection_first_match_witness :
    processFile "blobs" [("blobs/p3", ⟨[7], 9⟩)] [("p1", ⟨sha256Hex [7], 5, 1⟩)] "blobs/p3"
      = ([("p3", ⟨sha256Hex [7], 9, 1⟩)], true) ∧
    alookup (processFile "blobs" [("blobs/p3", ⟨[7], 9⟩)]
      [("p1", ⟨sha256Hex [7], 5, 1⟩)] "blobs/p3").1 "p1" = none ∧
    (∀ x ∈ (processFile "blobs" [("blobs/p3", ⟨[7], 9⟩)]
        [("p1", ⟨sha256Hex [7], 5, 1⟩)] "blobs/p3").1,
      x.2.hash = sha256Hex [7] ∧ x.2.size = 1 → x.1 = "p3") := by
  have h := C2_move_detection_first_match "blobs" [("blobs/p3", ⟨[7], 9⟩)]
    [("p1", ⟨sha256Hex [7], 5, 1⟩)] "blobs/p3" ⟨[7], 9⟩ "p3" (sha256Hex [7]) 1
    [] [] "p1" ⟨sha256Hex [7], 5, 1⟩
    (by decide) (by decide) rfl (by decide) (by decide) rfl (by decide) rfl rfl
    (by simp) (by decide)
  refine ⟨?_, h.2.1, h.2.2.2 (by simp)⟩
  rw [h.1]
  decide

/-! ### Claim C7: delete under disk I/O failure (corrected) -/

/-- A valid delete authorization event for `hashA` from the whitelisted key. -/
def c7Event : NostrEvent :=
  { id := "i", pubkey := "pk1", created_at := 0, kind := 24242
    tags := [["t", "delete"], ["x", hashA]], content := "", sig := "s" }

/-- Cache for the C7 counterexample: one entry carrying `hashA`. -/
def c7Cache : Cache := [("p1", ⟨hashA, 0, 1⟩)]

/-- Disk for the C7 counterexample: the cached file exists. -/
def c7Disk : FDisk := [("blobs/p1", ⟨[7], 0⟩)]

/-- C7 counterexample: an authorized delete of a hash whose cached file
exists on disk, where `unlink` (first case) or `saveCache` (second case)
fails, is answered with 404 "Blob not found" — not with a 500 InternalError
as the claim states: `deleteBlobByHash` catches the exception and returns
`false`, which `handleDelete` maps to 404. -/
theorem C7_counterexample :
    fexists c7Disk (joinPath "blobs" "p1") = true ∧
    (handleDelete wEnv (fun _ => false) true (some (some c7Event)) hashA c7Disk c7Cache).1
      = createAuthErrorResponse "Blob not found" 404 ∧
    (handleDelete wEnv (fun _ => false) true (some (some c7Event)) hashA c7Disk c7Cache).1.status
      ≠ 500 ∧
    (handleDelete wEnv (fun _ => true) false (some (some c7Event)) hashA c7Disk c7Cache).1
      = createAuthErrorResponse "Blob not found" 404 ∧
    (handleDelete wEnv (fun _ => true) false (some (some c7Event)) hashA c7Disk c7Cache).1.status
      ≠ 500 := by decide

/-- C7 amended: for an authorized DELETE of a hash whose first live cached
file exists, a failing `unlink` yields a 404 response with the state
unchanged, and a failing `saveCache` after a successful `unlink` yields a 404
response with the file and cache entry already removed; in neither case is
the delete reported successful, and neither failure surfaces as a 500. -/
theorem C7_delete_io_failure_yields_404
    (env : RouteEnv) (e : NostrEvent) (h : String) (disk : FDisk) (cache : Cache)
    (pre post : List (String × CacheEntry)) (p0 : String) (e0 : CacheEntry)
    (hvalid : isValidSha256 h = true)
    (hsig : env.auth.verifySig e = true)
    (hauth : isValidBlossomAuth env.auth e "delete" (some [h]) = true)
    (hwl : e.pubkey ∈ env.auth.whitelist)
    (hsplit : cache = pre ++ (p0, e0) :: post)
    (he0 : e0.hash = h)
    (hex : fexists disk (joinPath env.blobDir p0) = true)
    (hpre : ∀ x ∈ pre, ¬(x.2.hash = h ∧ fexists disk (joinPath env.blobDir x.1) = true)) :
    (∀ unlinkOk saveOk, unlinkOk (joinPath env.blobDir p0) = false →
      handleDelete env unlinkOk saveOk (some (some e)) h disk cache
        = (createAuthErrorResponse "Blob not found" 404, disk, cache)) ∧
    (∀ unlinkOk, unlinkOk (joinPath env.blobDir p0) = true →
      handleDelete env unlinkOk false (some (some e)) h disk cache
        = (createAuthErrorResponse "Blob not found" 404,
           adel disk (joinPath env.blobDir p0), adel cache p0)) := by
  have hval : validateAuthorization env.auth (some (some e)) "delete" (some [h])
      = .ok e.pubkey := by
    simp [validateAuthorization, hsig, hauth, hwl]
  constructor
  · intro unlinkOk saveOk hu
    have hloop := deleteLoop_first env.blobDir unlinkOk saveOk h disk cache
      pre p0 e0 post hpre he0 hex
    rw [hsplit] at hloop ⊢
    simp [handleDelete, hvalid, hval, deleteBlobByHash, hloop, hu]
  · intro unlinkOk hu
    have hloop := deleteLoop_first env.blobDir unlinkOk false h disk cache
      pre p0 e0 post hpre he0 hex
    rw [hsplit] at hloop ⊢
    simp [handleDelete, hvalid, hval, deleteBlobByHash, hloop, hu]

/-- Witness for C7 amended at the concrete fixture: both failure modes give
the 404 response, with the respective states. -/
theorem C7_delete_io_failure_yields_404_witness :
    handleDelete wEnv (fun _ => false) true (some (some c7Event)) hashA c7Disk c7Cache
      = (createAuthErrorResponse "Blob not found" 404, c7Disk, c7Cache) ∧
    handleDelete wEnv (fun _ => true) false (some (some c7Event)) hashA c7Disk c7Cache
      = (createAuthErrorResponse "Blob not found" 404, [], []) := by
  have h := C7_delete_io_failure_yields_404 wEnv c7Event hashA c7Disk c7Cache
    [] [] "p1" ⟨hashA, 0, 1⟩
    (by decide) (by decide) (by decide) (by decide) rfl rfl (by decide) (by simp)
  constructor
  · exact h.1 (fun _ => false) true rfl
  · have h2 := h.2 (fun _ => true) rfl
    rw [h2]
    decide

/-! ### Claim C10: delete removes only the first matching copy -/

/-- C10: when two or more distinct cached paths carry hash `h` and all their
files exist, `deleteBlobByHash h` unlinks the file and removes the cache
entry of the first matching path in iteration order only, returns true, and
every other path keeps its cache entry and file, so the blob remains
retrievable by `h`. -/
theorem C10_delete_first_copy_only
    (blobDir : String) (disk : FDisk) (cache : Cache)
    (pre post : List (String × CacheEntry)) (p0 q : String) (e0 f : CacheEntry) (h : String)
    (hsplit : cache = pre ++ (p0, e0) :: post)
    (he0 : e0.hash = h)
    (hex0 : fexists disk (joinPath blobDir p0) = true)
    (hpre : ∀ x ∈ pre, x.2.hash ≠ h)
    (hq : (q, f) ∈ post) (hqh : f.hash = h) (hqne : q ≠ p0)
    (hqex : fexists disk (joinPath blobDir q) = true) :
    (deleteBlobByHash blobDir (fun _ => true) true disk cache h).1 = true ∧
    (deleteBlobByHash blobDir (fun _ => true) true disk cache h).2.1
      = adel disk (joinPath blobDir p0) ∧
    (deleteBlobByHash blobDir (fun _ => true) true disk cache h).2.2 = adel cache p0 ∧
    (∀ p, p ≠ p0 →
      alookup (deleteBlobByHash blobDir (fun _ => true) true disk cache h).2.2 p
        = alookup cache p ∧
      fexists (deleteBlobByHash blobDir (fun _ => true) true disk cache h).2.1
          (joinPath blobDir p)
        = fexists disk (joinPath blobDir p)) ∧
    (findBlobByHash blobDir
      (deleteBlobByHash blobDir (fun _ => true) true disk cache h).2.1
      (deleteBlobByHash blobDir (fun _ => true) true disk cache h).2.2 h).isSome = true := by
  have hpre' : ∀ x ∈ pre, ¬(x.2.hash = h ∧ fexists disk (joinPath blobDir x.1) = true) :=
    fun x hx hc => hpre x hx hc.1
  have hloop := deleteLoop_first blobDir (fun _ => true) true h disk cache
    pre p0 e0 post hpre' he0 hex0
  have hres : deleteBlobByHash blobDir (fun _ => true) true disk cache h
      = (true, adel disk (joinPath blobDir p0), adel cache p0) := by
    unfold deleteBlobByHash
    rw [hsplit] at hloop ⊢
    simpa using hloop
  rw [hres]
  have hjne : joinPath blobDir q ≠ joinPath blobDir p0 := by
    intro hc
    exact hqne (joinPath_inj blobDir hc)
  refine ⟨rfl, rfl, rfl, ?_, ?_⟩
  · intro p hp
    refine ⟨alookup_adel_ne cache p0 p hp, ?_⟩
    have hjp : joinPath blobDir p ≠ joinPath blobDir p0 := by
      intro hc
      exact hp (joinPath_inj blobDir hc)
    simp only [fexists]
    rw [alookup_adel_ne disk (joinPath blobDir p0) (joinPath blobDir p) hjp]
  · have hfs : (List.find? (fun pe => pe.2.hash = h &&
        fexists (adel disk (joinPath blobDir p0)) (joinPath blobDir pe.1))
        (adel cache p0)).isSome = true := by
      rw [List.find?_isSome]
      refine ⟨(q, f), ?_, ?_⟩
      · apply mem_adel
        · rw [hsplit]
          exact List.mem_append.mpr (Or.inr (List.mem_cons_of_mem _ hq))
        · exact hqne
      · simp only [Bool.and_eq_true, decide_eq_true_eq]
        refine ⟨hqh, ?_⟩
        simp only [fexists]
        rw [alookup_adel_ne disk (joinPath blobDir p0) (joinPath blobDir q) hjne]
        exact hqex
    simp only [findBlobByHash]
    cases hfind : List.find? (fun pe => pe.2.hash = h &&
        fexists (adel disk (joinPath blobDir p0)) (joinPath blobDir pe.1))
        (adel cache p0) with
    | none => rw [hfind] at hfs; simp at hfs
    | some pe => simp

/-- Witness for C10: two copies of the same content; the delete removes the
first (`p1`) and leaves `p2` cached, on disk, and found by `findBlobByHash`. -/
theorem C10_delete_first_copy_only_witness :
    (deleteBlobByHash "blobs" (fun _ => true) true
      [("blobs/p1", ⟨[1], 1⟩), ("blobs/p2", ⟨[1], 2⟩)]
      [("p1", ⟨hashA, 1, 1⟩), ("p2", ⟨hashA, 2, 1⟩)] hashA).1 = true ∧
    (deleteBlobByHash "blobs" (fun _ => true) true
      [("blobs/p1", ⟨[1], 1⟩), ("blobs/p2", ⟨[1], 2⟩)]
      [("p1", ⟨hashA, 1, 1⟩), ("p2", ⟨hashA, 2, 1⟩)] hashA).2.2
      = [("p2", ⟨hashA, 2, 1⟩)] ∧
    alookup (deleteBlobByHash "blobs" (fun _ => true) true
      [("blobs/p1", ⟨[1], 1⟩), ("blobs/p2", ⟨[1], 2⟩)]
      [("p1", ⟨hashA, 1, 1⟩), ("p2", ⟨hashA, 2, 1⟩)] hashA).2.2 "p2"
      = some ⟨hashA, 2, 1⟩ ∧
    (findBlobByHash "blobs"
      (deleteBlobByHash "blobs" (fun _ => true) true
        [("blobs/p1", ⟨[1], 1⟩), ("blobs/p2", ⟨[1], 2⟩)]
        [("p1", ⟨hashA, 1, 1⟩), ("p2", ⟨hashA, 2, 1⟩)] hashA).2.1
      (deleteBlobByHash "blobs" (fun _ => true) true
        [("blobs/p1", ⟨[1], 1⟩), ("blobs/p2", ⟨[1], 2⟩)]
        [("p1", ⟨hashA, 1, 1⟩), ("p2", ⟨hashA, 2, 1⟩)] hashA).2.2 hashA).isSome = true := by
  have h := C10_delete_first_copy_only "blobs"
    [("blobs/p1", ⟨[1], 1⟩), ("blobs/p2", ⟨[1], 2⟩)]
    [("p1", ⟨hashA, 1, 1⟩), ("p2", ⟨hashA, 2, 1⟩)]
    [] [("p2", ⟨hashA, 2, 1⟩)] "p1" "p2" ⟨hashA, 1, 1⟩ ⟨hashA, 2, 1⟩ hashA
    rfl rfl (by decide) (by simp) (by simp) rfl (by decide) (by decide)
  refine ⟨h.1, ?_, ?_, h.2.2.2.2⟩
  · rw [h.2.2.1]
    decide
  · rw [h.2.2.1]
    decide

/-! ### Claim C3: byte-range responses (corrected) -/

/-- Disk for the C3 counterexample: a 100-byte file. -/
def c3Disk : FDisk := [("blobs/p1", ⟨List.replicate 100 7, 0⟩)]

/-- Cache for the C3 counterexample. -/
def c3Cache : Cache := [("p1", ⟨hashA, 0, 100⟩)]

/-- C3 counterexample: the out-of-bounds range `bytes=200-210` on a 100-byte
blob is answered 416, but the response carries **no** `Content-Range` header
(`handleInvalidRange` passes the header object into the `reason?: string`
parameter of `createCorsErrorResponse`, so it is coerced to the `X-Reason`
value `"[object Object]"` and the headers are dropped) and its body is the
text `"Invalid range"`, not empty — contradicting the claimed
`Content-Range: bytes */100` header and absent body. -/
theorem C3_counterexample :
    (handleBlobGet wEnv c3Disk c3Cache ("/" ++ hashA) (some "bytes=200-210")).status = 416 ∧
    alookup (handleBlobGet wEnv c3Disk c3Cache ("/" ++ hashA)
      (some "bytes=200-210")).headers "Content-Range" = none ∧
    alookup (handleBlobGet wEnv c3Disk c3Cache ("/" ++ hashA)
      (some "bytes=200-210")).headers "X-Reason" = some "[object Object]" ∧
    (handleBlobGet wEnv c3Disk c3Cache ("/" ++ hashA) (some "bytes=200-210")).body
      = .text "Invalid range" ∧
    (handleBlobGet wEnv c3Disk c3Cache ("/" ++ hashA) (some "bytes=200-210")).body
      ≠ .empty := by decide

/-- C3 amended: for a GET of a located blob of size `S` with a Range header:
a parsed range with `start <= end` and both in `[0, S)` is accepted
(`parseRangeHeader` returns it) and answered 206 with
`Content-Range: bytes start-end/S`, `Content-Length = end - start + 1` and
exactly the bytes `[start, end]`; a malformed or out-of-bounds range is
answered 416 with body `"Invalid range"` and an `X-Reason: [object Object]`
header but — due to the argument-order slip in `handleInvalidRange` — no
`Content-Range` header and a non-empty body. -/
theorem C3_range_responses
    (env : RouteEnv) (disk : FDisk) (cache : Cache) (pathname rh : String)
    (info : BlobPathInfo) (fp : String) (fd : FileData)
    (hparse : parseBlobPath pathname = some info)
    (hfind : findBlobByHash env.blobDir disk cache info.hash = some fp)
    (hdisk : alookup disk fp = some fd)
    (hrh : rh ≠ "") :
    (∀ start endI, rangeSearch rh.data = some (start, some endI) →
      start < fd.content.length → start ≤ endI → endI < fd.content.length →
      parseRangeHeader rh fd.content.length = some (start, endI)) ∧
    (∀ start endI, parseRangeHeader rh fd.content.length = some (start, endI) →
      start < fd.content.length ∧ start ≤ endI ∧ endI < fd.content.length) ∧
    (∀ start endI, parseRangeHeader rh fd.content.length = some (start, endI) →
      handleBlobGet env disk cache pathname (some rh)
        = { status := 206
            headers := [("Access-Control-Allow-Origin", "*"),
                        ("Content-Type", getMimeType env fp info.extension),
                        ("Content-Length", toString (endI - start + 1)),
                        ("Accept-Ranges", "bytes"),
                        ("Content-Range", "bytes " ++ toString start ++ "-" ++
                           toString endI ++ "/" ++ toString fd.content.length)]
            body := .bytes ((fd.content.drop start).take (endI - start + 1)) }) ∧
    (parseRangeHeader rh fd.content.length = none →
      handleBlobGet env disk cache pathname (some rh)
        = { status := 416
            headers := [("Access-Control-Allow-Origin", "*"),
                        ("X-Reason", "[object Object]")]
            body := .text "Invalid range" }) := by
  refine ⟨?_, ?_, ?_, ?_⟩
  · intro start endI hsearch h1 h2 h3
    simp only [parseRangeHeader, hsearch]
    split
    · simp
    · rename_i hcond
      exfalso
      apply hcond
      refine ⟨by exact_mod_cast h1, by exact_mod_cast h2, by exact_mod_cast h3⟩
  · intro start endI hpr
    simp only [parseRangeHeader] at hpr
    cases hsearch : rangeSearch rh.data with
    | none => rw [hsearch] at hpr; exact absurd hpr (by simp)
    | some se =>
      obtain ⟨s0, e0⟩ := se
      rw [hsearch] at hpr
      simp only at hpr
      split at hpr
      · rename_i hcond
        obtain ⟨hc1, hc2, hc3⟩ := hcond
        have hse : s0 = start ∧ (match e0 with
            | some e => (e : Int)
            | none => (fd.content.length : Int) - 1).toNat = endI := by
          have := Option.some.inj hpr
          exact ⟨congrArg Prod.fst this, congrArg Prod.snd this⟩
        obtain ⟨hs0, he0⟩ := hse
        subst hs0
        refine ⟨by exact_mod_cast hc1, ?_, ?_⟩
        · rw [← he0]
          omega
        · rw [← he0]
          omega
      · exact absurd hpr (by simp)
  · intro start endI hpr
    simp only [handleBlobGet, hparse, hfind, hdisk, Option.map, Option.getD, if_neg hrh, hpr,
      handleRangeRequest, streamRange, createCorsResponse, createBlobHeaders,
      addCorsHeaders, objMerge, corsBaseHeaders]
    simp [aset]
  · intro hpr
    simp only [handleBlobGet, hparse, hfind, hdisk, Option.map, Option.getD, if_neg hrh, hpr,
      handleInvalidRange, createCorsErrorResponse, JsVal.truthy, JsVal.asHeaderValue,
      addCorsHeaders, objMerge, corsBaseHeaders, createBlobHeaders]
    simp [aset]

/-- Witness for C3 amended: `bytes=10-19` on a 100-byte blob gives a 206 with
`Content-Range: bytes 10-19/100` and ten bytes; `bytes=200-210` gives the
416 without `Content-Range`. -/
theorem C3_range_responses_witness :
    handleBlobGet wEnv c3Disk c3Cache ("/" ++ hashA) (some "bytes=10-19")
      = { status := 206
          headers := [("Access-Control-Allow-Origin", "*"),
                      ("Content-Type", "application/octet-stream"),
                      ("Content-Length", "10"),
                      ("Accept-Ranges", "bytes"),
                      ("Content-Range", "bytes 10-19/100")]
          body := .bytes (List.replicate 10 7) } ∧
    handleBlobGet wEnv c3Disk c3Cache ("/" ++ hashA) (some "bytes=200-210")
      = { status := 416
          headers := [("Access-Control-Allow-Origin", "*"),
                      ("X-Reason", "[object Object]")]
          body := .text "Invalid range" } := by
  have h := C3_range_responses wEnv c3Disk c3Cache ("/" ++ hashA) "bytes=10-19"
    ⟨hashA, none⟩ "blobs/p1" ⟨List.replicate 100 7, 0⟩
    (by decide) (by decide) (by decide) (by decide)
  have h2 := C3_range_responses wEnv c3Disk c3Cache ("/" ++ hashA) "bytes=200-210"
    ⟨hashA, none⟩ "blobs/p1" ⟨List.replicate 100 7, 0⟩
    (by decide) (by decide) (by decide) (by decide)
  constructor
  · have := h.2.2.1 10 19 (by decide)
    rw [this]
    decide
  · exact h2.2.2.2 (by decide)

/-! ### Claim C6: listing filters by mtime window and sorts most-recent-first -/

/-- The descriptor built by `handleList` for one listed blob. -/
def listDescriptor (env : RouteEnv) (b : BlobInfo) : BlobDescriptor :=
  createBlobDescriptor env b.hash b.size
    (determineMimeType env (some (jsBasename b.relativePath)) none)
    (b.mtime / 1000) (some (jsBasename b.relativePath))

/-- C6: with integer `since` and `until` query values, `GET /list/pubkey`
returns 200 with descriptors of exactly those cached entries under
`blossom-uploads/<pubkey>` whose modification time in seconds lies in
`[since, until]` (the exact rational conditions `mtime / 1000 >= since` and
`mtime / 1000 <= until`, i.e. `1000·since ≤ mtime ≤ 1000·until`), in
descending-mtime order. -/
theorem C6_list_window_and_order
    (env : RouteEnv) (pubkey : String) (ss us : String) (tsince tuntil : Int)
    (cache : Cache)
    (hvp : isValidPubkey pubkey = true)
    (hss : ss ≠ "") (hus : us ≠ "")
    (hsp : jsParseInt ss = some tsince) (hup : jsParseInt us = some tuntil) :
    ∃ blobs : List BlobInfo,
      handleList env pubkey (some ss) (some us) cache
        = { status := 200
            headers := [("Access-Control-Allow-Origin", "*"),
                        ("Content-Type", "application/json")]
            body := .jsonDescriptors (blobs.map (listDescriptor env)) } ∧
      blobs.Pairwise (fun a b => b.mtime ≤ a.mtime) ∧
      blobs.Perm ((cache.filter (fun pe =>
          strStartsWith pe.1 (joinPath BLOSSOM_UPLOADS_FOLDER pubkey) &&
          1000 * tsince ≤ (pe.2.mtime : Int) && (pe.2.mtime : Int) ≤ 1000 * tuntil)).map
        (fun pe => BlobInfo.mk pe.1 pe.2.hash pe.2.size pe.2.mtime)) := by
  classical
  set le : BlobInfo → BlobInfo → Bool := fun a b => decide (b.mtime ≤ a.mtime) with hle
  set toB : String × CacheEntry → BlobInfo :=
    fun pe => BlobInfo.mk pe.1 pe.2.hash pe.2.size pe.2.mtime with htoB
  set pfx : String × CacheEntry → Bool :=
    fun pe => strStartsWith pe.1 (joinPath BLOSSOM_UPLOADS_FOLDER pubkey) with hpfx
  set f1 : BlobInfo → Bool := fun b => decide ((b.mtime : Int) ≥ 1000 * tsince) with hf1
  set f2 : BlobInfo → Bool := fun b => decide ((b.mtime : Int) ≤ 1000 * tuntil) with hf2
  refine ⟨((((cache.filter pfx).map toB).mergeSort le).filter f1).filter f2, ?_, ?_, ?_⟩
  · simp only [handleList, hvp, Bool.not_true, if_neg, getBlobsByPubkey, listDescriptor]
    rw [if_neg (by simp), if_neg hss, hsp, if_neg hus, hup]
    rfl
  · have hsorted := @List.sorted_mergeSort BlobInfo le
      (fun a b c hab hbc => by
        simp only [hle, decide_eq_true_eq] at hab hbc ⊢
        omega)
      (fun a b => by
        simp only [hle, Bool.or_eq_true, decide_eq_true_eq]
        omega)
      ((cache.filter pfx).map toB)
    have h1 := (hsorted.filter f1).filter f2
    exact h1.imp (fun hab => by
      simp only [hle, decide_eq_true_eq] at hab
      exact hab)
  · have hperm : ((((cache.filter pfx).map toB).mergeSort le).filter f1).filter f2
        |>.Perm ((((cache.filter pfx).map toB).filter f1).filter f2) :=
      ((List.mergeSort_perm _ le).filter f1).filter f2
    apply hperm.trans
    rw [List.filter_filter, List.filter_map, List.filter_filter]
    apply List.Perm.of_eq
    congr 1
    apply List.filter_congr
    intro x hx
    simp only [Function.comp, hf1, hf2, htoB, hpfx, ge_iff_le]
    simp [Bool.and_comm, Bool.and_left_comm, Bool.and_assoc]

/-- Cache for the C6 witness: three entries under the pubkey's upload
subtree (mtimes 3000, 7000, 9000 ms) and one outside it. -/
def c6Cache : Cache :=
  [(joinPath (joinPath BLOSSOM_UPLOADS_FOLDER hashA) "f1", ⟨"h1", 3000, 1⟩),
   ("other/f2", ⟨"h2", 5000, 2⟩),
   (joinPath (joinPath BLOSSOM_UPLOADS_FOLDER hashA) "f3", ⟨"h3", 7000, 3⟩),
   (joinPath (joinPath BLOSSOM_UPLOADS_FOLDER hashA) "f4", ⟨"h4", 9000, 4⟩)]

/-- Witness for C6: `since=2`, `until=8` keeps exactly the entries with
mtimes 3000 and 7000 under the subtree, in descending order. -/
theorem C6_list_window_and_order_witness :
    ∃ blobs : List BlobInfo,
      handleList wEnv hashA (some "2") (some "8") c6Cache
        = { status := 200
            headers := [("Access-Control-Allow-Origin", "*"),
                        ("Content-Type", "application/json")]
            body := .jsonDescriptors (blobs.map (listDescriptor wEnv)) } ∧
      blobs.Pairwise (fun a b => b.mtime ≤ a.mtime) ∧
      blobs.Perm
        [⟨joinPath (joinPath BLOSSOM_UPLOADS_FOLDER hashA) "f1", "h1", 1, 3000⟩,
         ⟨joinPath (joinPath BLOSSOM_UPLOADS_FOLDER hashA) "f3", "h3", 3, 7000⟩] := by
  obtain ⟨blobs, h1, h2, h3⟩ := C6_list_window_and_order wEnv hashA "2" "8" 2 8 c6Cache
    (by decide) (by decide) (by decide) (by decide) (by decide)
  refine ⟨blobs, h1, h2, ?_⟩
  have heq : (c6Cache.filter (fun pe =>
      strStartsWith pe.1 (joinPath BLOSSOM_UPLOADS_FOLDER hashA) &&
      1000 * (2 : Int) ≤ (pe.2.mtime : Int) && (pe.2.mtime : Int) ≤ 1000 * (8 : Int))).map
        (fun pe => BlobInfo.mk pe.1 pe.2.hash pe.2.size pe.2.mtime)
      = [⟨joinPath (joinPath BLOSSOM_UPLOADS_FOLDER hashA) "f1", "h1", 1, 3000⟩,
         ⟨joinPath (joinPath BLOSSOM_UPLOADS_FOLDER hashA) "f3", "h3", 3, 7000⟩] := by
    decide
  rw [← heq]
  exact h3

/-! ### Claim C1: upload round trip -/

/-- C1: an upload of non-empty bytes `B` under a fully valid authorization
event (valid signature, kind 24242, `t=upload`, not expired, whitelisted,
an `x` tag equal to SHA-256(B)) within the size limit is answered 200 with a
descriptor whose `sha256` is the lowercase hex SHA-256 of `B` and whose
`size` is `|B|`; the post-store cache maps the written file's relative path
`blossom-uploads/<pubkey>/<filename>` to that hash (the store and cache
update are sequenced before the response is built), and `findBlobByHash` on
SHA-256(B) then returns a path whose on-disk content is exactly `B`.  The
last conclusion uses the content-addressing assumption on the pre-state:
any cached entry already carrying this hash whose file exists holds exactly
the bytes `B` (no hash collision among stored contents). -/
theorem C1_upload_roundtrip
    (env : RouteEnv) (e : NostrEvent) (B : Bytes) (ct : Option String)
    (disk : FDisk) (cache : Cache)
    (hsig : env.auth.verifySig e = true)
    (hkind : e.kind = 24242)
    (ht : hasTTag e "upload" = true)
    (hnexp : isExpired env.auth e = false)
    (hwl : e.pubkey ∈ env.auth.whitelist)
    (hne : B ≠ [])
    (hsizeLimit : ∀ m, env.maxFileSize = some m → m = 0 ∨ B.length ≤ m)
    (hx : validateAuthorizationHash e [sha256Hex B] = true)
    (hcons : ∀ pe ∈ cache, pe.2.hash = sha256Hex B →
      ∀ fd, alookup disk (joinPath env.blobDir pe.1) = some fd → fd.content = B) :
    (handleUpload env (some (some e)) B ct disk cache).1.status = 200 ∧
    (∃ d, (handleUpload env (some (some e)) B ct disk cache).1.body = .jsonDescriptor d ∧
      d.sha256 = sha256Hex B ∧ d.size = B.length) ∧
    alookup (handleUpload env (some (some e)) B ct disk cache).2.2
      (joinPath BLOSSOM_UPLOADS_FOLDER
        (joinPath e.pubkey (generateFilename env (sha256Hex B) ct none)))
      = some ⟨sha256Hex B, env.auth.nowMs, B.length⟩ ∧
    (∃ p fd, findBlobByHash env.blobDir
        (handleUpload env (some (some e)) B ct disk cache).2.1
        (handleUpload env (some (some e)) B ct disk cache).2.2 (sha256Hex B) = some p ∧
      alookup (handleUpload env (some (some e)) B ct disk cache).2.1 p = some fd ∧
      fd.content = B) := by
  have hauth : validateAuthorizationEarly env.auth (some (some e)) "upload"
      = .ok ⟨e.pubkey, e⟩ := by
    simp [validateAuthorizationEarly, hsig, hkind, ht, hnexp, hwl]
  have hlen : ¬ B.length = 0 := by
    intro hc
    exact hne (List.length_eq_zero.mp hc)
  -- name the stored artefacts
  set hash := sha256Hex B with hhash
  set filename := generateFilename env hash ct none with hfn
  set filePath := joinPath (joinPath (joinPath env.blobDir BLOSSOM_UPLOADS_FOLDER) e.pubkey)
    filename with hfp
  set relPath := joinPath BLOSSOM_UPLOADS_FOLDER (joinPath e.pubkey filename) with hrp
  have hfp_eq : filePath = joinPath env.blobDir relPath := by
    rw [hfp, hrp, joinPath_assoc, joinPath_assoc]
  have hrel_eq : relativeOf env.blobDir filePath = relPath := by
    rw [hfp_eq, relativeOf_joinPath]
  have hmain : handleUpload env (some (some e)) B ct disk cache
      = ({ status := 200
           headers := addCorsHeaders [("Content-Type", "application/json")]
           body := .jsonDescriptor (createBlobDescriptor env hash B.length
             (determineMimeType env none ct) (env.auth.nowMs / 1000) (some filename)) },
         aset disk filePath ⟨B, env.auth.nowMs⟩,
         aset cache relPath ⟨hash, env.auth.nowMs, B.length⟩) := by
    simp only [handleUpload, hauth, hlen, if_neg, handleUpload.handleUploadAfterSize,
      hx, Bool.not_true, storeBlobForPubkey, ← hhash, ← hfn, ← hfp, hrel_eq]
    cases hms : env.maxFileSize with
    | none => simp [hx]
    | some m =>
      rcases hsizeLimit m hms with hm0 | hmle
      · simp [hx, hm0]
      · have : ¬ (m ≠ 0 ∧ B.length > m) := by omega
        simp [hx, this]
  rw [hmain]
  refine ⟨rfl, ⟨_, rfl, rfl, rfl⟩, alookup_aset_self _ _ _, ?_⟩
  -- retrievability: the first live match of the hash has content exactly B
  have hex_new : fexists (aset disk filePath ⟨B, env.auth.nowMs⟩)
      (joinPath env.blobDir relPath) = true := by
    rw [← hfp_eq]
    simp [fexists, alookup_aset_self]
  have hsome : (List.find? (fun pe => pe.2.hash = hash &&
      fexists (aset disk filePath ⟨B, env.auth.nowMs⟩) (joinPath env.blobDir pe.1))
      (aset cache relPath ⟨hash, env.auth.nowMs, B.length⟩)).isSome = true := by
    rw [List.find?_isSome]
    exact ⟨(relPath, ⟨hash, env.auth.nowMs, B.length⟩), self_mem_aset _ _ _,
      by simp [hex_new]⟩
  cases hfind : List.find? (fun pe => pe.2.hash = hash &&
      fexists (aset disk filePath ⟨B, env.auth.nowMs⟩) (joinPath env.blobDir pe.1))
      (aset cache relPath ⟨hash, env.auth.nowMs, B.length⟩) with
  | none => rw [hfind] at hsome; simp at hsome
  | some pe =>
    have hpred := List.find?_some hfind
    simp only [Bool.and_eq_true, decide_eq_true_eq] at hpred
    obtain ⟨hpeh, hpee⟩ := hpred
    have hpemem := List.mem_of_find?_eq_some hfind
    have hfound : findBlobByHash env.blobDir (aset disk filePath ⟨B, env.auth.nowMs⟩)
        (aset cache relPath ⟨hash, env.auth.nowMs, B.length⟩) hash
        = some (joinPath env.blobDir pe.1) := by
      simp [findBlobByHash, hfind]
    refine ⟨joinPath env.blobDir pe.1, ?_⟩
    by_cases hpe1 : pe.1 = relPath
    · -- the found path is the freshly written file
      refine ⟨⟨B, env.auth.nowMs⟩, hfound, ?_, rfl⟩
      rw [hpe1, ← hfp_eq]
      exact alookup_aset_self _ _ _
    · -- an older path: its full path differs from the written one,
      -- so the disk is unchanged there and the consistency hypothesis applies
      have hjne : joinPath env.blobDir pe.1 ≠ filePath := by
        rw [hfp_eq]
        intro hc
        exact hpe1 (joinPath_inj env.blobDir hc)
      have hdisk_eq : alookup (aset disk filePath ⟨B, env.auth.nowMs⟩)
          (joinPath env.blobDir pe.1) = alookup disk (joinPath env.blobDir pe.1) :=
        alookup_aset_ne disk filePath (joinPath env.blobDir pe.1) _ hjne
      have hpe_cache : pe ∈ cache := by
        rcases mem_aset hpemem with hc | hc
        · exact absurd (congrArg Prod.fst hc) hpe1
        · exact hc
      simp only [fexists, hdisk_eq] at hpee
      cases hlk : alookup disk (joinPath env.blobDir pe.1) with
      | none => rw [hlk] at hpee; simp at hpee
      | some fd0 =>
        have hcontent := hcons pe hpe_cache hpeh fd0 hlk
        refine ⟨fd0, hfound, ?_, hcontent⟩
        rw [hdisk_eq, hlk]

/-- A fully valid upload authorization event for the bytes `[42]`. -/
def c1Event : NostrEvent :=
  { id := "i", pubkey := "pk1", created_at := 0, kind := 24242
    tags := [["t", "upload"], ["x", sha256Hex [42]]], content := "", sig := "s" }

/-- Witness for C1: uploading `[42]` into the empty store succeeds and the
blob is immediately retrievable with exactly those bytes. -/
theorem C1_upload_roundtrip_witness :
    (handleUpload wEnv (some (some c1Event)) [42] none [] []).1.status = 200 ∧
    (∃ d, (handleUpload wEnv (some (some c1Event)) [42] none [] []).1.body
        = .jsonDescriptor d ∧ d.sha256 = sha256Hex [42] ∧ d.size = 1) ∧
    alookup (handleUpload wEnv (some (some c1Event)) [42] none [] []).2.2
      (joinPath BLOSSOM_UPLOADS_FOLDER
        (joinPath "pk1" (generateFilename wEnv (sha256Hex [42]) none none)))
      = some ⟨sha256Hex [42], 2000000000000, 1⟩ ∧
    (∃ p fd, findBlobByHash "blobs"
        (handleUpload wEnv (some (some c1Event)) [42] none [] []).2.1
        (handleUpload wEnv (some (some c1Event)) [42] none [] []).2.2
        (sha256Hex [42]) = some p ∧
      alookup (handleUpload wEnv (some (some c1Event)) [42] none [] []).2.1 p = some fd ∧
      fd.content = [42]) :=
  C1_upload_roundtrip wEnv c1Event [42] none [] []
    (by decide) (by decide) (by decide) (by decide) (by decide) (by decide)
    (fun m hm => by
      have hmv : m = 104857600 := by simpa [wEnv] using hm.symm
      subst hmv
      right
      decide)
    (by decide)
    (by simp)

end BlobBox
